import Mathlib

/-!
# png2flic: frame ingestion and the encoding loop

Shallow embedding of `png2flic.cpp` (`read_frame` and `main`).

* `unsigned` values are natural numbers, reduced modulo `2 ^ 32` where the
  program computes with them; `int` values are integers, and a signed
  product that leaves the `int` range is undefined behaviour.
* Memory the program writes through a raw pointer or a fixed array is
  modelled with explicit bounds: an access outside the object ends the
  execution with a `Fault`.
* What `lodepng` delivers for a file is an input of the model (`LoadedPng`);
  the calls the program makes on the encoder and on the C runtime are
  recorded as a trace of `Event`s.
* Progress messages on standard output are not modelled; every diagnostic
  on standard error is.
-/

namespace Png2Flic

/-! ## Data model -/

/-- Modelled from the spec: an RGB triple of the colour map (`flic::Color`;
`flic.h` is not among the sources), three 8-bit channels. -/
structure Color where
  r : Nat
  g : Nat
  b : Nat
deriving DecidableEq

/-- Modelled from the spec: the colour map of a frame, exactly 256
fixed-position RGB triples. -/
abbrev Colormap := Fin 256 → Color

/-- Modelled from the spec: the container header (`flic::Header`), frame
count, width, height and speed; `main` assigns `int` values to the fields. -/
structure Header where
  frames : Int
  width : Int
  height : Int
  speed : Int
deriving DecidableEq

/-- Modelled from the spec: the frame (`flic::Frame`): the heap buffer
`pixels` points to, one palette index per byte, the row stride (an unsigned
32-bit value) and the colour map. -/
structure Frame where
  pixels : List Nat
  rowstride : Nat
  colormap : Colormap

/-- Colour mode of a lodepng state: the palette bytes (RGBA, 8 bits per
channel) and the number of palette entries it reports. -/
structure LodePNGColorMode where
  palette : List Nat
  palettesize : Nat
deriving DecidableEq

/-- Everything `lodepng::load_file` and `lodepng::decode` hand back to
`read_frame` for one file: the two error codes, the decoded pixel vector,
the dimensions, and the two colour modes of the state (`info_raw`, the
mode requested for the output, and `info_png.color`, the mode of the file). -/
structure LoadedPng where
  load_error : Nat
  decode_error : Nat
  pixels : List Nat
  width : Nat
  height : Nat
  info_raw : LodePNGColorMode
  info_png_color : LodePNGColorMode
deriving DecidableEq

/-- Reasons for which an execution leaves defined behaviour. -/
inductive Fault where
  | colormap_store (entry : Nat)
  | palette_load (pos : Nat)
  | pixels_store (count : Nat) (capacity : Nat)
  | int_overflow
deriving DecidableEq

/-- Diagnostics `read_frame` writes to standard error before it returns
false. -/
inductive Diag where
  | load_failed (error : Nat)
  | decode_failed (error : Nat)
  | invalid_palette_size (palettesize : Nat)
  | height_mismatch
  | width_mismatch
  | stride_mismatch
  | pixel_count_mismatch
deriving DecidableEq

/-- Result of one call of `read_frame`, together with the state of
`out_frame` when the call returns. -/
inductive ReadResult where
  | failed (diag : Diag) (out_frame : Frame)
  | done (out_frame : Frame)
  | undefined (fault : Fault)

/-! ## Machine arithmetic -/

/-- Conversion of an `int` to `unsigned`, as the comparisons of an
`unsigned` with an `int` field perform it. -/
def to_unsigned (x : Int) : Nat := (x % 4294967296).toNat

/-- Product of two `unsigned` values. -/
def unsigned_mul (a b : Nat) : Nat := (a * b) % 4294967296

/-- Product of two `int` values; overflow is undefined. -/
def int_mul (a b : Int) : Except Fault Int :=
  if -2147483648 ≤ a * b ∧ a * b < 2147483648 then .ok (a * b) else .error .int_overflow

/-! ## read_frame -/

/-- Assignment `colormap[entry] = c` on the 256-entry table. -/
def colormap_store (cm : Colormap) (entry : Nat) (c : Color) : Except Fault Colormap :=
  if h : entry < 256 then .ok (Function.update cm ⟨entry, h⟩ c)
  else .error (.colormap_store entry)

/-- Read of one byte of the palette at offset `pos`. -/
def palette_load (palette : List Nat) (pos : Nat) : Except Fault Nat :=
  match palette[pos]? with
  | some v => .ok v
  | none => .error (.palette_load pos)

/-- First loop of `read_frame`, `for (; entry < palettesize; entry++)`,
with `todo` the number of iterations still to run (`palettesize - entry`).
Each iteration reads the four bytes of entry `entry` and stores the colour
made of the first three. -/
def palette_loop (palette : List Nat) : (todo : Nat) → (entry : Nat) → Colormap →
    Except Fault (Nat × Colormap)
  | 0, entry, cm => .ok (entry, cm)
  | todo + 1, entry, cm => do
    let r ← palette_load palette (4 * entry)
    let g ← palette_load palette (4 * entry + 1)
    let b ← palette_load palette (4 * entry + 2)
    let _a ← palette_load palette (4 * entry + 3)
    let cm1 ← colormap_store cm entry ⟨r, g, b⟩
    palette_loop palette todo (entry + 1) cm1

/-- Second loop of `read_frame`, `for (; entry < 256; entry++)`, with `todo`
the number of iterations still to run (`256 - entry`). -/
def clear_loop : (todo : Nat) → (entry : Nat) → Colormap → Except Fault (Nat × Colormap)
  | 0, entry, cm => .ok (entry, cm)
  | todo + 1, entry, cm => do
    let cm1 ← colormap_store cm entry ⟨0, 0, 0⟩
    clear_loop todo (entry + 1) cm1

/-- The call `memcpy(dst, src.data(), src.size())`: the first `src.size()`
bytes of the destination buffer are overwritten. -/
def memcpy (dst src : List Nat) : Except Fault (List Nat) :=
  if src.length ≤ dst.length then .ok (src ++ dst.drop src.length)
  else .error (.pixels_store src.length dst.length)

/-- The body of `read_frame` after the five checks: both colour-map loops
and the pixel copy. -/
def fill_frame (png : LoadedPng) (out_frame : Frame) : Except Fault Frame := do
  let (entry, cm1) ← palette_loop png.info_png_color.palette
    (png.info_png_color.palettesize - 0) 0 out_frame.colormap
  let (_, cm2) ← clear_loop (256 - entry) entry cm1
  let px ← memcpy out_frame.pixels png.pixels
  pure { pixels := px, rowstride := out_frame.rowstride, colormap := cm2 }

/-- Embedding of `read_frame`; `png` is what lodepng delivers for
`file_name`. -/
def read_frame (png : LoadedPng) (header : Header) (out_frame : Frame) : ReadResult :=
  if png.load_error ≠ 0 then .failed (.load_failed png.load_error) out_frame
  else if png.decode_error ≠ 0 then .failed (.decode_failed png.decode_error) out_frame
  else if png.info_raw.palettesize > 256 then
    .failed (.invalid_palette_size png.info_raw.palettesize) out_frame
  else if png.height ≠ to_unsigned header.height then .failed .height_mismatch out_frame
  else if png.width ≠ to_unsigned header.width then .failed .width_mismatch out_frame
  else if png.width ≠ out_frame.rowstride then .failed .stride_mismatch out_frame
  else if png.pixels.length ≠ unsigned_mul png.height png.width then
    .failed .pixel_count_mismatch out_frame
  else
    match fill_frame png out_frame with
    | .error fault => .undefined fault
    | .ok frame => .done frame

/-! ## main -/

/-- Command line as the option library hands it to `main`: whether `--help`
was given, and the values of the option variables (`int` for the three
numeric options, zero when absent). -/
structure Options where
  help : Bool
  output : String
  height : Int
  width : Int
  speed : Int
  input_files : List String
deriving DecidableEq

/-- The world `main` runs in: whether `fopen` succeeds on a path, what
lodepng delivers for a file name, the bytes found in freshly allocated
memory, and the colour table of a default-constructed frame. -/
structure Env where
  fopen : String → Bool
  lodepng : String → LoadedPng
  heap : Nat → Nat
  colormap : Colormap

/-- Configuration diagnostics of `main`. -/
inductive ConfigError where
  | no_output
  | invalid_height
  | invalid_width
  | invalid_speed
  | no_input
deriving DecidableEq

/-- Observable steps of a run of `main`, in program order. -/
inductive Event where
  | usage
  | config_error (e : ConfigError)
  | fopen (path : String) (opened : Bool)
  | open_failed
  | writeHeader (header : Header)
  | new_pixels (count : Nat)
  | lodepng (file_name : String)
  | diag (d : Diag)
  | read_failed (file_name : String)
  | writeFrame (frame : Frame)
  | delete_pixels
  | fclose

/-- How a run ends: `return` with an exit code, or undefined behaviour. -/
inductive Status where
  | exited (code : Nat)
  | undefined (fault : Fault)
deriving DecidableEq

/-- A run of `main`: the events up to its end, and how it ended. -/
structure Run where
  trace : List Event
  status : Status

def EXIT_SUCCESS : Nat := 0

def EXIT_FAILURE : Nat := 1

/-- State at the end of the `for` loop of `main`: the events of the loop,
the frame, and the value of `ret` (or the fault that ended the loop). -/
structure LoopEnd where
  trace : List Event
  frame : Frame
  ret : Except Fault Nat

/-- The `for (auto &f : input_files)` loop of `main`; `ret` is still
`EXIT_SUCCESS` when the loop is entered. -/
def main_loop (env : Env) (header : Header) : Frame → List String → LoopEnd
  | frame, [] => { trace := [], frame := frame, ret := .ok EXIT_SUCCESS }
  | frame, f :: rest =>
    match read_frame (env.lodepng f) header frame with
    | .undefined fault => { trace := [.lodepng f], frame := frame, ret := .error fault }
    | .failed d fr =>
      { trace := [.lodepng f, .diag d, .read_failed f], frame := fr, ret := .ok EXIT_FAILURE }
    | .done fr =>
      let r := main_loop env header fr rest
      { trace := .lodepng f :: .writeFrame fr :: r.trace, frame := r.frame, ret := r.ret }

/-- Bytes of the array `new uint8_t[count]` delivers. -/
def new_pixels (env : Env) (count : Nat) : List Nat := (List.range count).map env.heap

/-- Embedding of `main`, from the test of `--help` to `return ret`. -/
def main (opts : Options) (env : Env) : Run :=
  if opts.help then { trace := [.usage], status := .exited EXIT_SUCCESS }
  else if opts.output.isEmpty then
    { trace := [.config_error .no_output], status := .exited EXIT_FAILURE }
  else if opts.height ≤ 0 then
    { trace := [.config_error .invalid_height], status := .exited EXIT_FAILURE }
  else if opts.width ≤ 0 then
    { trace := [.config_error .invalid_width], status := .exited EXIT_FAILURE }
  else if opts.speed ≤ 0 then
    { trace := [.config_error .invalid_speed], status := .exited EXIT_FAILURE }
  else if opts.input_files.isEmpty then
    { trace := [.config_error .no_input], status := .exited EXIT_FAILURE }
  else if !env.fopen opts.output then
    { trace := [.fopen opts.output false, .open_failed], status := .exited EXIT_FAILURE }
  else
    let header : Header :=
      { frames := 0, width := opts.width, height := opts.height, speed := opts.speed }
    match int_mul opts.width opts.height with
    | .error fault =>
      { trace := [.fopen opts.output true, .writeHeader header], status := .undefined fault }
    | .ok count =>
      let frame : Frame :=
        { pixels := new_pixels env count.toNat, rowstride := to_unsigned opts.width,
          colormap := env.colormap }
      let r := main_loop env header frame opts.input_files
      match r.ret with
      | .error fault =>
        { trace := [.fopen opts.output true, .writeHeader header, .new_pixels count.toNat]
            ++ r.trace,
          status := .undefined fault }
      | .ok ret =>
        { trace := [.fopen opts.output true, .writeHeader header, .new_pixels count.toNat]
            ++ r.trace ++ [.delete_pixels, .fclose],
          status := .exited ret }

/-! ## Conditions and reference definitions used by the statements -/

/-- The path conditions under which `read_frame` gets past its last
`return false`: both lodepng calls report no error and none of the five
tests fires. -/
def accepted (png : LoadedPng) (header : Header) (rowstride : Nat) : Prop :=
  png.load_error = 0 ∧ png.decode_error = 0 ∧ png.info_raw.palettesize ≤ 256 ∧
    png.height = to_unsigned header.height ∧ png.width = to_unsigned header.width ∧
    png.width = rowstride ∧ png.pixels.length = unsigned_mul png.height png.width

instance (png : LoadedPng) (header : Header) (rowstride : Nat) :
    Decidable (accepted png header rowstride) := by
  unfold accepted
  infer_instance

/-- Colour the first loop stores for entry `i` of a palette: the first
three of the four bytes of the entry. -/
def palette_color (palette : List Nat) (i : Nat) : Color :=
  ⟨palette.getD (4 * i) 0, palette.getD (4 * i + 1) 0, palette.getD (4 * i + 2) 0⟩

/-- The 256-entry table of the specification's ColorMapBuilder: slot `i`
below the palette size holds the (R, G, B) channels of palette entry `i`,
every other slot holds (0, 0, 0). -/
def normalised_palette (mode : LodePNGColorMode) : Colormap :=
  fun i => if i.val < mode.palettesize then palette_color mode.palette i.val else ⟨0, 0, 0⟩

/-- Bytes of a palette given as a list of (R, G, B, A) entries. -/
def rgba_bytes : List (Nat × Nat × Nat × Nat) → List Nat
  | [] => []
  | (r, g, b, a) :: rest => r :: g :: b :: a :: rgba_bytes rest

/-- Value `read_frame` returned, if it returned. -/
def ReadResult.returned : ReadResult → Option Bool
  | .failed _ _ => some false
  | .done _ => some true
  | .undefined _ => none

/-- State of `out_frame` after the call, if the call returned. -/
def ReadResult.frame : ReadResult → Option Frame
  | .failed _ fr => some fr
  | .done fr => some fr
  | .undefined _ => none

/-- Diagnostic of the call, if it wrote one. -/
def ReadResult.diag : ReadResult → Option Diag
  | .failed d _ => some d
  | .done _ => none
  | .undefined _ => none

/-- The frame a decoded source determines: its pixels, its width as row
stride, and its palette normalised to 256 entries. -/
def frame_of (png : LoadedPng) : Frame :=
  { pixels := png.pixels, rowstride := png.width,
    colormap := normalised_palette png.info_png_color }

/-- Invariants of the data model for the frame of a run: the row stride is
the header width and the pixel buffer has height × width bytes. -/
def frame_matches (header : Header) (frame : Frame) : Prop :=
  frame.rowstride = to_unsigned header.width ∧
    (frame.pixels.length : Int) = header.height * header.width

instance (header : Header) (frame : Frame) : Decidable (frame_matches header frame) := by
  unfold frame_matches
  infer_instance

/-- Modelled from the spec: the contract of the external RasterDecoder
(lodepng, which is not part of the sources), section 6: a decode that
reports no error delivers a flat pixel buffer of width × height bytes and a
palette of at most 256 RGBA entries, whose bytes are all present. Both
palette sizes the state reports are within the limit. -/
def DecoderContract (png : LoadedPng) : Prop :=
  png.load_error = 0 → png.decode_error = 0 →
    png.pixels.length = png.width * png.height ∧
    png.info_raw.palettesize ≤ 256 ∧
    png.info_png_color.palettesize ≤ 256 ∧
    4 * png.info_png_color.palettesize ≤ png.info_png_color.palette.length

instance (png : LoadedPng) : Decidable (DecoderContract png) := by
  unfold DecoderContract
  infer_instance

/-- Header fields are `int` values and, in the data model, positive. -/
def header_valid (header : Header) : Prop :=
  0 < header.width ∧ header.width < 2147483648 ∧
    0 < header.height ∧ header.height < 2147483648

instance (header : Header) : Decidable (header_valid header) := by
  unfold header_valid
  infer_instance

/-! ### The scenario of the specification -/

/-- Source of the scenario: a 4 × 2 image, palette
[(255,0,0,255), (0,255,0,128)], eight index bytes all zero. -/
def scenario_png : LoadedPng :=
  { load_error := 0, decode_error := 0, pixels := [0, 0, 0, 0, 0, 0, 0, 0],
    width := 4, height := 2,
    info_raw := { palette := [], palettesize := 0 },
    info_png_color := { palette := [255, 0, 0, 255, 0, 255, 0, 128], palettesize := 2 } }

def scenario_header : Header := { frames := 0, width := 4, height := 2, speed := 10 }

/-- A frame buffer with arbitrary earlier contents. -/
def scenario_frame : Frame :=
  { pixels := [9, 8, 7, 6, 5, 4, 3, 2], rowstride := 4, colormap := fun _ => ⟨7, 7, 7⟩ }

/-- A second source for the same header, with a one-entry palette. -/
def scenario_small_png : LoadedPng :=
  { load_error := 0, decode_error := 0, pixels := [0, 0, 0, 0, 0, 0, 0, 0],
    width := 4, height := 2,
    info_raw := { palette := [], palettesize := 0 },
    info_png_color := { palette := [1, 2, 3, 255], palettesize := 1 } }

/-- A source of the right dimensions whose file palette reports 257 entries
(all 1028 bytes present), while the palette size of `info_raw` is the zero
`read_frame` starts from. -/
def oversized_png : LoadedPng :=
  { load_error := 0, decode_error := 0, pixels := [0, 0, 0, 0, 0, 0, 0, 0],
    width := 4, height := 2,
    info_raw := { palette := [], palettesize := 0 },
    info_png_color := { palette := List.replicate 1028 0, palettesize := 257 } }

/-- A source that is three pixels wide where the header asks for four. -/
def narrow_png : LoadedPng :=
  { load_error := 0, decode_error := 0, pixels := [0, 0, 0, 0, 0, 0],
    width := 3, height := 2,
    info_raw := { palette := [], palettesize := 0 },
    info_png_color := { palette := [255, 0, 0, 255], palettesize := 1 } }

/-! ### Reference validator of the specification -/

/-- Validation errors of the specification, one per check. -/
inductive ValidationError where
  | PaletteTooLarge
  | HeightMismatch
  | WidthMismatch
  | StrideMismatch
  | PixelCountMismatch
deriving DecidableEq

/-- Decoded image as the FrameValidator of the specification receives it. -/
structure DecodedImage where
  width : Nat
  height : Nat
  pixels : List Nat
  paletteSize : Nat

/-- Reference validator, written after section 4.2 of the specification:
the five checks in their fixed order, the first failure reported, all
quantities mathematical integers. -/
def validate_spec (header : Header) (decoded : DecodedImage) (rowStride : Nat) :
    Option ValidationError :=
  if ¬ decoded.paletteSize ≤ 256 then some .PaletteTooLarge
  else if ¬ (decoded.height : Int) = header.height then some .HeightMismatch
  else if ¬ (decoded.width : Int) = header.width then some .WidthMismatch
  else if ¬ (rowStride : Int) = header.width then some .StrideMismatch
  else if ¬ (decoded.pixels.length : Int) = header.height * header.width then
    some .PixelCountMismatch
  else none

/-- The decoded image a loaded file stands for: its dimensions, its pixel
vector, and the size of its palette, the palette of the file whose entries
are copied into the colour map (`info_png.color`). -/
def decoded_image (png : LoadedPng) : DecodedImage :=
  { width := png.width, height := png.height, pixels := png.pixels,
    paletteSize := png.info_png_color.palettesize }

/-- Validation error a diagnostic of `read_frame` stands for; the two
lodepng failures are not validation errors. -/
def Diag.validation_error : Diag → Option ValidationError
  | .load_failed _ => none
  | .decode_failed _ => none
  | .invalid_palette_size _ => some .PaletteTooLarge
  | .height_mismatch => some .HeightMismatch
  | .width_mismatch => some .WidthMismatch
  | .stride_mismatch => some .StrideMismatch
  | .pixel_count_mismatch => some .PixelCountMismatch

/-- Validation outcome of a call of `read_frame`. -/
def validation_outcome (r : ReadResult) : Option ValidationError :=
  r.diag.bind Diag.validation_error

/-- A 65536 × 65536 image with all its 2 ^ 32 pixel bytes. -/
def huge_png : LoadedPng :=
  { load_error := 0, decode_error := 0, pixels := List.replicate 4294967296 0,
    width := 65536, height := 65536,
    info_raw := { palette := [], palettesize := 0 },
    info_png_color := { palette := [0, 0, 0, 255], palettesize := 1 } }

def huge_header : Header := { frames := 0, width := 65536, height := 65536, speed := 10 }

/-! ### Runs of main: conditions and observations -/

/-- Header `main` builds from the options. -/
def main_header (opts : Options) : Header :=
  { frames := 0, width := opts.width, height := opts.height, speed := opts.speed }

/-- Frame `main` sets up before its loop, when `width * height` is
representable. -/
def main_frame (opts : Options) (env : Env) : Frame :=
  { pixels := new_pixels env (opts.width * opts.height).toNat,
    rowstride := to_unsigned opts.width, colormap := env.colormap }

/-- None of the five configuration tests of `main` fires. -/
def config_valid (opts : Options) : Prop :=
  opts.output.isEmpty = false ∧ 0 < opts.height ∧ 0 < opts.width ∧ 0 < opts.speed ∧
    opts.input_files.isEmpty = false

instance (opts : Options) : Decidable (config_valid opts) := by
  unfold config_valid
  infer_instance

/-- The run gets to the `for` loop: no `--help`, a valid configuration, an
output that opens, and a pixel count `width * height` inside the `int`
range. -/
def reaches_loop (opts : Options) (env : Env) : Prop :=
  opts.help = false ∧ config_valid opts ∧ env.fopen opts.output = true ∧
    opts.width * opts.height < 2147483648

instance (opts : Options) (env : Env) : Decidable (reaches_loop opts env) := by
  unfold reaches_loop
  infer_instance

/-- Frames passed to `writeFrame`, in order. -/
def frames_written : List Event → List Frame
  | [] => []
  | .writeFrame fr :: rest => fr :: frames_written rest
  | _ :: rest => frames_written rest

/-- Headers passed to `writeHeader`, in order. -/
def headers_written : List Event → List Header
  | [] => []
  | .writeHeader h :: rest => h :: headers_written rest
  | _ :: rest => headers_written rest

/-- Files handed to lodepng, in order. -/
def files_decoded : List Event → List String
  | [] => []
  | .lodepng f :: rest => f :: files_decoded rest
  | _ :: rest => files_decoded rest

/-- Diagnostics of `read_frame`, in order. -/
def diagnostics : List Event → List Diag
  | [] => []
  | .diag d :: rest => d :: diagnostics rest
  | _ :: rest => diagnostics rest

/-- Paths on which `fopen` was attempted, in order. -/
def open_attempts : List Event → List String
  | [] => []
  | .fopen path _ :: rest => path :: open_attempts rest
  | _ :: rest => open_attempts rest

/-- Events of the loop for sources that are all ingested. -/
def ingest_events (env : Env) : List String → List Event
  | [] => []
  | f :: rest => .lodepng f :: .writeFrame (frame_of (env.lodepng f)) :: ingest_events env rest

/-! ### Concrete runs -/

/-- Options of the scenario: 4 × 2, speed 10, one input. -/
def scenario_opts : Options :=
  { help := false, output := "out.flc", height := 2, width := 4, speed := 10,
    input_files := ["a.png"] }

/-- A world in which every output opens, "a.png" and "c.png" are the
scenario image, and "b.png" is three pixels wide. -/
def scenario_env : Env :=
  { fopen := fun _ => true,
    lodepng := fun f => if f = "b.png" then narrow_png else scenario_png,
    heap := fun _ => 0,
    colormap := fun _ => ⟨0, 0, 0⟩ }

/-- A batch of two sources with different palettes, in this order. -/
def batch_opts : Options :=
  { help := false, output := "out.flc", height := 2, width := 4, speed := 10,
    input_files := ["a.png", "s.png"] }

/-- A world in which every output opens, "s.png" is the source with the
one-entry palette and every other file is the scenario image. -/
def batch_env : Env :=
  { fopen := fun _ => true,
    lodepng := fun f => if f = "s.png" then scenario_small_png else scenario_png,
    heap := fun _ => 0,
    colormap := fun _ => ⟨0, 0, 0⟩ }

/-- The batch [A valid, B wrong width, C valid]. -/
def fail_fast_opts : Options :=
  { help := false, output := "out.flc", height := 2, width := 4, speed := 10,
    input_files := ["a.png", "b.png", "c.png"] }

/-- A valid configuration of 65536 × 65536 frames with one input. -/
def huge_opts : Options :=
  { help := false, output := "out.flc", height := 65536, width := 65536, speed := 10,
    input_files := ["a.png"] }

/-- A world in which every output opens and every file is the
65536 × 65536 image. -/
def huge_env : Env :=
  { fopen := fun _ => true, lodepng := fun _ => huge_png, heap := fun _ => 0,
    colormap := fun _ => ⟨0, 0, 0⟩ }

/-- A 65536 × 32768 image with all its 2 ^ 31 pixel bytes. -/
def large_png : LoadedPng :=
  { load_error := 0, decode_error := 0, pixels := List.replicate 2147483648 0,
    width := 65536, height := 32768,
    info_raw := { palette := [], palettesize := 0 },
    info_png_color := { palette := [0, 0, 0, 255], palettesize := 1 } }

/-- A valid configuration of 65536 × 32768 frames with one input. -/
def large_opts : Options :=
  { help := false, output := "out.flc", height := 32768, width := 65536, speed := 10,
    input_files := ["a.png"] }

/-- A world in which every output opens and every file is the
65536 × 32768 image. -/
def large_env : Env :=
  { fopen := fun _ => true, lodepng := fun _ => large_png, heap := fun _ => 0,
    colormap := fun _ => ⟨0, 0, 0⟩ }

/-! ### Resources and calls of read_frame -/

/-- Number of pixel buffers acquired with `new uint8_t[...]`. -/
def pixel_acquisitions : List Event → Nat
  | [] => 0
  | .new_pixels _ :: rest => pixel_acquisitions rest + 1
  | _ :: rest => pixel_acquisitions rest

/-- Number of `delete[] frame.pixels`. -/
def pixel_releases : List Event → Nat
  | [] => 0
  | .delete_pixels :: rest => pixel_releases rest + 1
  | _ :: rest => pixel_releases rest

/-- Number of output handles acquired: calls of `fopen` that succeeded. -/
def output_opens : List Event → Nat
  | [] => 0
  | .fopen _ opened :: rest => output_opens rest + (if opened then 1 else 0)
  | _ :: rest => output_opens rest

/-- Number of `fclose(output_file)`. -/
def output_closes : List Event → Nat
  | [] => 0
  | .fclose :: rest => output_closes rest + 1
  | _ :: rest => output_closes rest

/-- The calls of `read_frame` the loop of `main` makes, in order: the file
name, the frame passed in, and the result. The loop goes on to the next
file only after a call that returned true. -/
def read_frame_calls (env : Env) (header : Header) :
    Frame → List String → List (String × Frame × ReadResult)
  | _, [] => []
  | frame, f :: rest =>
    match read_frame (env.lodepng f) header frame with
    | .done fr => (f, frame, .done fr) :: read_frame_calls env header fr rest
    | .failed d fr => [(f, frame, .failed d fr)]
    | .undefined fault => [(f, frame, .undefined fault)]

/-- A valid configuration of 46341 × 46341 frames with one input; the
pixel count is 2147488281, just above the largest `int`. -/
def square_opts : Options :=
  { help := false, output := "out.flc", height := 46341, width := 46341, speed := 10,
    input_files := ["a.png"] }

/-- A 46341 × 46341 image with all its 2147488281 pixel bytes. -/
def square_png : LoadedPng :=
  { load_error := 0, decode_error := 0, pixels := List.replicate 2147488281 0,
    width := 46341, height := 46341,
    info_raw := { palette := [], palettesize := 0 },
    info_png_color := { palette := [0, 0, 0, 255], palettesize := 1 } }

/-- A world in which every output opens and every file is the
46341 × 46341 image. -/
def square_env : Env :=
  { fopen := fun _ => true, lodepng := fun _ => square_png, heap := fun _ => 0,
    colormap := fun _ => ⟨0, 0, 0⟩ }

/-! ## The two colour-map loops and the pixel copy -/

theorem palette_load_ok (palette : List Nat) (pos : Nat) (h : pos < palette.length) :
    palette_load palette pos = .ok (palette.getD pos 0) := by
  unfold palette_load
  rw [List.getElem?_eq_getElem h]
  simp [List.getD, List.getElem?_eq_getElem h]

theorem palette_loop_ok (palette : List Nat) :
    ∀ (todo entry : Nat) (cm : Colormap), entry + todo ≤ 256 →
      4 * (entry + todo) ≤ palette.length →
      palette_loop palette todo entry cm =
        .ok (entry + todo, fun i =>
          if entry ≤ i.val ∧ i.val < entry + todo then palette_color palette i.val else cm i) := by
  intro todo
  induction todo with
  | zero =>
    intro entry cm _ _
    simp only [palette_loop, Nat.add_zero]
    congr 2
    funext i
    have : ¬ (entry ≤ i.val ∧ i.val < entry) := by omega
    simp [this]
  | succ k ih =>
    intro entry cm h256 hlen
    have hlt : entry < 256 := by omega
    simp only [palette_loop]
    rw [palette_load_ok palette (4 * entry) (by omega),
      palette_load_ok palette (4 * entry + 1) (by omega),
      palette_load_ok palette (4 * entry + 2) (by omega),
      palette_load_ok palette (4 * entry + 3) (by omega)]
    simp only [colormap_store, hlt, dite_true]
    show palette_loop palette k (entry + 1) _ = _
    rw [ih (entry + 1) _ (by omega) (by omega)]
    have e : entry + 1 + k = entry + (k + 1) := by omega
    rw [e]
    congr 2
    funext i
    by_cases hi : i.val = entry
    · have hi2 : i = ⟨entry, hlt⟩ := Fin.ext hi
      subst hi2
      simp [palette_color]
    · have hne : i ≠ ⟨entry, hlt⟩ := fun h => hi (by rw [h])
      rw [Function.update_noteq hne]
      by_cases h1 : entry + 1 ≤ i.val ∧ i.val < entry + (k + 1)
      · have h2 : entry ≤ i.val ∧ i.val < entry + (k + 1) := by omega
        simp [h1, h2]
      · have h2 : ¬ (entry ≤ i.val ∧ i.val < entry + (k + 1)) := by omega
        simp [h1, h2]

/-- Once the palette reports more than 256 entries the first loop reaches
`entry = 256` and stores outside the table. -/
theorem palette_loop_overrun (palette : List Nat) (hlen : 1028 ≤ palette.length) :
    ∀ (todo entry : Nat) (cm : Colormap), entry ≤ 256 → 256 < entry + todo →
      palette_loop palette todo entry cm = .error (.colormap_store 256) := by
  intro todo
  induction todo with
  | zero => intro entry cm h1 h2; omega
  | succ k ih =>
    intro entry cm h1 h2
    simp only [palette_loop]
    rw [palette_load_ok palette (4 * entry) (by omega),
      palette_load_ok palette (4 * entry + 1) (by omega),
      palette_load_ok palette (4 * entry + 2) (by omega),
      palette_load_ok palette (4 * entry + 3) (by omega)]
    by_cases hlt : entry < 256
    · simp only [colormap_store, hlt, dite_true]
      show palette_loop palette k (entry + 1) _ = _
      exact ih (entry + 1) _ (by omega) (by omega)
    · have he : entry = 256 := by omega
      subst he
      simp [colormap_store]
      rfl

theorem clear_loop_ok :
    ∀ (todo entry : Nat) (cm : Colormap), entry + todo ≤ 256 →
      clear_loop todo entry cm =
        .ok (entry + todo, fun i =>
          if entry ≤ i.val ∧ i.val < entry + todo then ⟨0, 0, 0⟩ else cm i) := by
  intro todo
  induction todo with
  | zero =>
    intro entry cm _
    simp only [clear_loop, Nat.add_zero]
    congr 2
    funext i
    have : ¬ (entry ≤ i.val ∧ i.val < entry) := by omega
    simp [this]
  | succ k ih =>
    intro entry cm h256
    have hlt : entry < 256 := by omega
    simp only [clear_loop, colormap_store, hlt, dite_true]
    show clear_loop k (entry + 1) _ = _
    rw [ih (entry + 1) _ (by omega)]
    have e : entry + 1 + k = entry + (k + 1) := by omega
    rw [e]
    congr 2
    funext i
    by_cases hi : i.val = entry
    · have hi2 : i = ⟨entry, hlt⟩ := Fin.ext hi
      subst hi2
      simp
    · have hne : i ≠ ⟨entry, hlt⟩ := fun h => hi (by rw [h])
      rw [Function.update_noteq hne]
      by_cases h1 : entry + 1 ≤ i.val ∧ i.val < entry + (k + 1)
      · have h2 : entry ≤ i.val ∧ i.val < entry + (k + 1) := by omega
        simp [h1, h2]
      · have h2 : ¬ (entry ≤ i.val ∧ i.val < entry + (k + 1)) := by omega
        simp [h1, h2]

/-- Frame `fill_frame` leaves when nothing is accessed out of bounds. -/
theorem fill_frame_ok (png : LoadedPng) (out_frame : Frame)
    (hn : png.info_png_color.palettesize ≤ 256)
    (hpal : 4 * png.info_png_color.palettesize ≤ png.info_png_color.palette.length)
    (hfit : png.pixels.length ≤ out_frame.pixels.length) :
    fill_frame png out_frame =
      .ok { pixels := png.pixels ++ out_frame.pixels.drop png.pixels.length,
            rowstride := out_frame.rowstride,
            colormap := normalised_palette png.info_png_color } := by
  unfold fill_frame
  rw [Nat.sub_zero, palette_loop_ok _ _ 0 _ (by omega) (by omega)]
  simp only [Nat.zero_add]
  show (do
    let (_, cm2) ← clear_loop (256 - png.info_png_color.palettesize)
      png.info_png_color.palettesize _
    let px ← memcpy out_frame.pixels png.pixels
    pure ({ pixels := px, rowstride := out_frame.rowstride, colormap := cm2 } : Frame)) = _
  rw [clear_loop_ok _ _ _ (by omega)]
  simp only [memcpy, hfit, if_true]
  show Except.ok _ = Except.ok _
  congr 2
  funext i
  have hi := i.isLt
  unfold normalised_palette
  by_cases h : i.val < png.info_png_color.palettesize
  · have h2 : ¬ (png.info_png_color.palettesize ≤ i.val ∧
        i.val < png.info_png_color.palettesize + (256 - png.info_png_color.palettesize)) := by
      omega
    simp [h, h2]
  · have h2 : png.info_png_color.palettesize ≤ i.val ∧
        i.val < png.info_png_color.palettesize + (256 - png.info_png_color.palettesize) := by
      omega
    simp [h, h2]

theorem fill_frame_overrun (png : LoadedPng) (out_frame : Frame)
    (hn : 256 < png.info_png_color.palettesize)
    (hpal : 1028 ≤ png.info_png_color.palette.length) :
    fill_frame png out_frame = .error (.colormap_store 256) := by
  unfold fill_frame
  rw [palette_loop_overrun _ hpal _ 0 _ (by omega) (by omega)]
  rfl

/-! ## read_frame, case by case -/

theorem read_frame_of_accepted (png : LoadedPng) (header : Header) (out_frame : Frame)
    (h : accepted png header out_frame.rowstride) :
    read_frame png header out_frame =
      match fill_frame png out_frame with
      | .error fault => .undefined fault
      | .ok frame => .done frame := by
  obtain ⟨h1, h2, h3, h4, h5, h6, h7⟩ := h
  have h3n : ¬ png.info_raw.palettesize > 256 := by omega
  simp only [read_frame, h1, h2, h3n, ← h4, ← h5, ← h6, ← h7, ne_eq, not_true_eq_false,
    if_false]

theorem read_frame_of_not_accepted (png : LoadedPng) (header : Header) (out_frame : Frame)
    (h : ¬ accepted png header out_frame.rowstride) :
    ∃ diag, read_frame png header out_frame = .failed diag out_frame := by
  unfold read_frame
  split
  · exact ⟨_, rfl⟩
  split
  · exact ⟨_, rfl⟩
  split
  · exact ⟨_, rfl⟩
  split
  · exact ⟨_, rfl⟩
  split
  · exact ⟨_, rfl⟩
  split
  · exact ⟨_, rfl⟩
  split
  · exact ⟨_, rfl⟩
  · exfalso
    apply h
    unfold accepted
    simp_all

theorem palette_load_ok_iff (palette : List Nat) (pos : Nat) :
    (∃ v, palette_load palette pos = .ok v) ↔ pos < palette.length := by
  constructor
  · rintro ⟨v, hv⟩
    by_contra hge
    have hnone : palette[pos]? = none := List.getElem?_eq_none (by omega)
    simp [palette_load, hnone] at hv
  · intro h
    exact ⟨_, palette_load_ok palette pos h⟩

theorem palette_load_error (palette : List Nat) (pos : Nat) (h : palette.length ≤ pos) :
    palette_load palette pos = .error (.palette_load pos) := by
  have hnone : palette[pos]? = none := List.getElem?_eq_none h
  simp [palette_load, hnone]

/-- A first loop that runs to its end stayed inside the table and inside
the palette bytes. -/
theorem palette_loop_ok_inv (palette : List Nat) :
    ∀ (todo entry : Nat) (cm : Colormap) (r : Nat × Colormap),
      palette_loop palette todo entry cm = .ok r →
      todo = 0 ∨ (entry + todo ≤ 256 ∧ 4 * (entry + todo) ≤ palette.length) := by
  intro todo
  induction todo with
  | zero => intro entry cm r _; exact Or.inl rfl
  | succ k ih =>
    intro entry cm r hr
    right
    by_cases hlen : 4 * entry + 3 < palette.length
    · simp only [palette_loop] at hr
      rw [palette_load_ok palette (4 * entry) (by omega),
        palette_load_ok palette (4 * entry + 1) (by omega),
        palette_load_ok palette (4 * entry + 2) (by omega),
        palette_load_ok palette (4 * entry + 3) (by omega)] at hr
      by_cases hlt : entry < 256
      · simp only [colormap_store, hlt, dite_true] at hr
        have hr2 : palette_loop palette k (entry + 1) _ = .ok r := hr
        rcases ih (entry + 1) _ r hr2 with h0 | ⟨h1, h2⟩
        · subst h0
          omega
        · omega
      · simp only [colormap_store, hlt, dite_false] at hr
        exact absurd hr (by intro h; cases h)
    · exfalso
      simp only [palette_loop] at hr
      by_cases h0 : 4 * entry < palette.length
      · rw [palette_load_ok palette (4 * entry) h0] at hr
        by_cases h1 : 4 * entry + 1 < palette.length
        · rw [palette_load_ok palette (4 * entry + 1) h1] at hr
          by_cases h2 : 4 * entry + 2 < palette.length
          · rw [palette_load_ok palette (4 * entry + 2) h2,
              palette_load_error palette (4 * entry + 3) (by omega)] at hr
            cases hr
          · rw [palette_load_error palette (4 * entry + 2) (by omega)] at hr
            cases hr
        · rw [palette_load_error palette (4 * entry + 1) (by omega)] at hr
          cases hr
      · rw [palette_load_error palette (4 * entry) (by omega)] at hr
        cases hr

theorem fill_frame_ok_inv (png : LoadedPng) (out_frame frame : Frame)
    (h : fill_frame png out_frame = .ok frame) :
    png.info_png_color.palettesize ≤ 256 ∧
      4 * png.info_png_color.palettesize ≤ png.info_png_color.palette.length ∧
      png.pixels.length ≤ out_frame.pixels.length := by
  unfold fill_frame at h
  cases hp : palette_loop png.info_png_color.palette (png.info_png_color.palettesize - 0) 0
      out_frame.colormap with
  | error e => rw [hp] at h; cases h
  | ok r =>
    have hinv := palette_loop_ok_inv _ _ _ _ _ hp
    have hn : png.info_png_color.palettesize ≤ 256 ∧
        4 * png.info_png_color.palettesize ≤ png.info_png_color.palette.length := by
      rcases hinv with h0 | ⟨h1, h2⟩
      · omega
      · simp only [Nat.sub_zero, Nat.zero_add] at h1 h2
        exact ⟨h1, h2⟩
    refine ⟨hn.1, hn.2, ?_⟩
    by_contra hfit
    rw [Nat.sub_zero, palette_loop_ok _ _ 0 _ (by omega) (by omega)] at hp
    rw [Nat.sub_zero, palette_loop_ok _ _ 0 _ (by omega) (by omega)] at h
    simp only [Nat.zero_add] at h
    have h2 : (do
      let (_, cm2) ← clear_loop (256 - png.info_png_color.palettesize)
        png.info_png_color.palettesize
        (fun i : Fin 256 =>
          if 0 ≤ i.val ∧ i.val < png.info_png_color.palettesize then
            palette_color png.info_png_color.palette i.val else out_frame.colormap i)
      let px ← memcpy out_frame.pixels png.pixels
      pure ({ pixels := px, rowstride := out_frame.rowstride, colormap := cm2 } : Frame)) =
        .ok frame := h
    rw [clear_loop_ok _ _ _ (by omega)] at h2
    simp only [memcpy, hfit, if_false] at h2
    cases h2

/-- Exactly when `read_frame` returns true. -/
theorem read_frame_returned_true_iff (png : LoadedPng) (header : Header) (out_frame : Frame) :
    (read_frame png header out_frame).returned = some true ↔
      accepted png header out_frame.rowstride ∧
        png.info_png_color.palettesize ≤ 256 ∧
        4 * png.info_png_color.palettesize ≤ png.info_png_color.palette.length ∧
        png.pixels.length ≤ out_frame.pixels.length := by
  constructor
  · intro h
    by_cases hacc : accepted png header out_frame.rowstride
    · rw [read_frame_of_accepted png header out_frame hacc] at h
      cases hf : fill_frame png out_frame with
      | error e => rw [hf] at h; simp [ReadResult.returned] at h
      | ok frame => exact ⟨hacc, fill_frame_ok_inv png out_frame frame hf⟩
    · obtain ⟨d, hd⟩ := read_frame_of_not_accepted png header out_frame hacc
      rw [hd] at h
      simp [ReadResult.returned] at h
  · rintro ⟨hacc, hn, hpal, hfit⟩
    rw [read_frame_of_accepted png header out_frame hacc,
      fill_frame_ok png out_frame hn hpal hfit]
    rfl

/-- Exactly when `read_frame` returns false. -/
theorem read_frame_returned_false_iff (png : LoadedPng) (header : Header) (out_frame : Frame) :
    (read_frame png header out_frame).returned = some false ↔
      ¬ accepted png header out_frame.rowstride := by
  constructor
  · intro h hacc
    rw [read_frame_of_accepted png header out_frame hacc] at h
    cases hf : fill_frame png out_frame with
    | error e => rw [hf] at h; simp [ReadResult.returned] at h
    | ok frame => rw [hf] at h; simp [ReadResult.returned] at h
  · intro hacc
    obtain ⟨d, hd⟩ := read_frame_of_not_accepted png header out_frame hacc
    rw [hd]
    rfl

/-- A call that returns true leaves this frame. -/
theorem read_frame_done (png : LoadedPng) (header : Header) (out_frame : Frame)
    (h : (read_frame png header out_frame).returned = some true) :
    read_frame png header out_frame =
      .done { pixels := png.pixels ++ out_frame.pixels.drop png.pixels.length,
              rowstride := out_frame.rowstride,
              colormap := normalised_palette png.info_png_color } := by
  obtain ⟨hacc, hn, hpal, hfit⟩ := (read_frame_returned_true_iff png header out_frame).1 h
  rw [read_frame_of_accepted png header out_frame hacc,
    fill_frame_ok png out_frame hn hpal hfit]

theorem rgba_bytes_getD (rest : List Nat) :
    ∀ (entries : List (Nat × Nat × Nat × Nat)) (i r g b a : Nat),
      entries[i]? = some (r, g, b, a) →
      (rgba_bytes entries ++ rest).getD (4 * i) 0 = r ∧
        (rgba_bytes entries ++ rest).getD (4 * i + 1) 0 = g ∧
        (rgba_bytes entries ++ rest).getD (4 * i + 2) 0 = b := by
  intro entries
  induction entries with
  | nil => intro i r g b a h; simp at h
  | cons e tl ih =>
    intro i r g b a h
    obtain ⟨r0, g0, b0, a0⟩ := e
    cases i with
    | zero =>
      simp at h
      obtain ⟨h1, h2, h3, _⟩ := h
      subst h1 h2 h3
      simp [rgba_bytes]
    | succ j =>
      simp at h
      have hj := ih j r g b a h
      have e0 : 4 * (j + 1) = 4 * j + 1 + 1 + 1 + 1 := by omega
      have e2 : 4 * j + 1 + 1 + 1 + 1 + 2 = 4 * j + 2 + 1 + 1 + 1 + 1 := by omega
      rw [e0, e2]
      simp only [rgba_bytes, List.cons_append, List.getD_cons_succ]
      exact hj

/-- C1 (colour-map build in read_frame): for every palette of n RGBA entries
(the palette bytes of the file's colour mode start with these n entries, and
the mode reports n as its size; a call that returns true has n ≤ 256) and
every earlier content of the frame, a call of read_frame that returns true
leaves a colour map, a table of exactly 256 slots, in which slot i below n
holds (R, G, B) of palette entry i, the alpha byte dropped, and every slot
from n on holds (0, 0, 0). -/
theorem read_frame_colormap (png : LoadedPng) (header : Header) (out_frame : Frame)
    (entries : List (Nat × Nat × Nat × Nat)) (rest : List Nat)
    (hsize : png.info_png_color.palettesize = entries.length)
    (hpal : png.info_png_color.palette = rgba_bytes entries ++ rest)
    (hok : (read_frame png header out_frame).returned = some true) :
    ∃ frame, read_frame png header out_frame = .done frame ∧
      ∀ i : Fin 256,
        (∀ r g b a, entries[i.val]? = some (r, g, b, a) → frame.colormap i = ⟨r, g, b⟩) ∧
        (entries.length ≤ i.val → frame.colormap i = ⟨0, 0, 0⟩) := by
  refine ⟨_, read_frame_done png header out_frame hok, ?_⟩
  intro i
  constructor
  · intro r g b a he
    have hlt : i.val < entries.length := by
      by_contra hge
      have : entries[i.val]? = none := List.getElem?_eq_none (by omega)
      rw [this] at he
      cases he
    obtain ⟨h1, h2, h3⟩ := rgba_bytes_getD rest entries i.val r g b a he
    show normalised_palette png.info_png_color i = _
    unfold normalised_palette palette_color
    rw [hsize, hpal, if_pos hlt, h1, h2, h3]
  · intro hge
    show normalised_palette png.info_png_color i = _
    unfold normalised_palette
    rw [hsize, if_neg (by omega)]

set_option maxRecDepth 100000 in
theorem read_frame_colormap_witness :
    (read_frame scenario_png scenario_header scenario_frame).returned = some true ∧
    ∃ frame, read_frame scenario_png scenario_header scenario_frame = .done frame ∧
      ∀ i : Fin 256,
        (∀ r g b a, [(255, 0, 0, 255), (0, 255, 0, 128)][i.val]? = some (r, g, b, a) →
          frame.colormap i = ⟨r, g, b⟩) ∧
        ([(255, 0, 0, 255), (0, 255, 0, 128)].length ≤ i.val →
          frame.colormap i = ⟨0, 0, 0⟩) :=
  ⟨by decide, read_frame_colormap scenario_png scenario_header scenario_frame
    [(255, 0, 0, 255), (0, 255, 0, 128)] [] (by decide) (by decide) (by decide)⟩

/-! ## Machine arithmetic on valid headers -/

theorem to_unsigned_of_range (x : Int) (h0 : 0 ≤ x) (h1 : x < 4294967296) :
    (to_unsigned x : Int) = x := by
  unfold to_unsigned
  rw [Int.emod_eq_of_lt h0 h1, Int.toNat_of_nonneg h0]

/-! ## C3: the palette-size test and the colour-map loop -/

/-- When `info_raw` reports more than 256 entries the call is rejected with
the palette-size diagnostic and the frame is returned as it was. -/
theorem read_frame_raw_palette_rejected (png : LoadedPng) (header : Header) (out_frame : Frame)
    (h1 : png.load_error = 0) (h2 : png.decode_error = 0)
    (h3 : 256 < png.info_raw.palettesize) :
    read_frame png header out_frame =
      .failed (.invalid_palette_size png.info_raw.palettesize) out_frame := by
  simp [read_frame, h1, h2, h3]

/-- When every test passes and the file palette reports more than 256
entries, the first loop stores at index 256. -/
theorem read_frame_overrun (png : LoadedPng) (header : Header) (out_frame : Frame)
    (hacc : accepted png header out_frame.rowstride)
    (hn : 256 < png.info_png_color.palettesize)
    (hpal : 1028 ≤ png.info_png_color.palette.length) :
    read_frame png header out_frame = .undefined (.colormap_store 256) := by
  rw [read_frame_of_accepted png header out_frame hacc, fill_frame_overrun png out_frame hn hpal]

/-- The palette-size test of `read_frame` is not what bounds the first loop:
on a state that breaks the decoder contract (no error reported, a file
palette of 257 entries, `info_raw.palettesize` 0) the test does not fire, no
diagnostic is written, and the first loop stores to `colormap[256]`. -/
theorem oversized_palette_not_rejected :
    256 < oversized_png.info_png_color.palettesize ∧
      ¬ (oversized_png.info_raw.palettesize > 256) ∧
      (read_frame oversized_png scenario_header scenario_frame).diag = none ∧
      read_frame oversized_png scenario_header scenario_frame =
        .undefined (.colormap_store 256) := by
  have h : read_frame oversized_png scenario_header scenario_frame =
      .undefined (.colormap_store 256) :=
    read_frame_overrun oversized_png scenario_header scenario_frame (by decide) (by decide)
      (by
        show 1028 ≤ (List.replicate 1028 0).length
        rw [List.length_replicate])
  refine ⟨by decide, by decide, ?_, h⟩
  rw [h]
  rfl

/-- For a source as a decoder that honours its contract delivers it, the
palette-size diagnostic of `read_frame` is never written: its test reads
`info_raw.palettesize`, which stays within 256. -/
theorem read_frame_no_palette_diagnostic (png : LoadedPng) (header : Header)
    (out_frame : Frame) (hc : DecoderContract png) (n : Nat) :
    (read_frame png header out_frame).diag ≠ some (.invalid_palette_size n) := by
  by_cases hacc : accepted png header out_frame.rowstride
  · rw [read_frame_of_accepted png header out_frame hacc]
    cases fill_frame png out_frame <;> exact fun hd => Option.noConfusion hd
  · intro hd
    unfold read_frame at hd
    split at hd
    · cases hd
    split at hd
    · cases hd
    split at hd
    · rename_i hl hdec hraw
      have h1 : png.load_error = 0 := Decidable.of_not_not hl
      have h2 : png.decode_error = 0 := Decidable.of_not_not hdec
      have := (hc h1 h2).2.1
      omega
    split at hd
    · cases hd
    split at hd
    · cases hd
    split at hd
    · cases hd
    split at hd
    · cases hd
    · split at hd <;> cases hd

/-! ## C4: atomicity -/

/-- C4 (atomicity of read_frame): whenever read_frame returns false the
frame (pixels, row stride, colour map) is the frame that was passed in;
read_frame returns false, with the frame untouched, whenever the load, the
decode or one of the five checks fails; and a call that leaves a frame
different from the one passed in has passed the load, the decode and all
five checks. -/
theorem read_frame_atomic (png : LoadedPng) (header : Header) (out_frame : Frame) :
    ((read_frame png header out_frame).returned = some false →
        (read_frame png header out_frame).frame = some out_frame) ∧
      (¬ accepted png header out_frame.rowstride →
        (read_frame png header out_frame).returned = some false ∧
          (read_frame png header out_frame).frame = some out_frame) ∧
      (∀ frame, (read_frame png header out_frame).frame = some frame → frame ≠ out_frame →
        accepted png header out_frame.rowstride) := by
  have key : ¬ accepted png header out_frame.rowstride →
      (read_frame png header out_frame).returned = some false ∧
        (read_frame png header out_frame).frame = some out_frame := by
    intro hacc
    obtain ⟨d, hd⟩ := read_frame_of_not_accepted png header out_frame hacc
    rw [hd]
    exact ⟨rfl, rfl⟩
  refine ⟨?_, key, ?_⟩
  · intro h
    exact (key ((read_frame_returned_false_iff png header out_frame).1 h)).2
  · intro frame hfr hne
    by_contra hacc
    have h2 := (key hacc).2
    rw [h2] at hfr
    exact hne (Option.some.inj hfr).symm

theorem read_frame_atomic_witness :
    (read_frame narrow_png scenario_header scenario_frame).returned = some false ∧
      (read_frame narrow_png scenario_header scenario_frame).frame = some scenario_frame :=
  (read_frame_atomic narrow_png scenario_header scenario_frame).2.1 (by decide)

/-! ## The frame a successful call leaves -/

theorem accepted_pixel_count (png : LoadedPng) (header : Header) (rowstride : Nat)
    (hv : header_valid header) (hc : DecoderContract png)
    (hacc : accepted png header rowstride) :
    (png.pixels.length : Int) = header.height * header.width := by
  obtain ⟨hw0, hw1, hh0, hh1⟩ := hv
  obtain ⟨h1, h2, _, h4, h5, _, _⟩ := hacc
  obtain ⟨hpx, _, _, _⟩ := hc h1 h2
  have ew := to_unsigned_of_range header.width (by omega) (by omega)
  have eh := to_unsigned_of_range header.height (by omega) (by omega)
  rw [hpx, h4, h5]
  push_cast
  rw [ew, eh]
  ring

/-- On a frame that satisfies the invariants of the data model, a source
that honours the decoder contract and passes the checks is ingested, and the
frame afterwards is `frame_of png`, which satisfies the invariants again. -/
theorem read_frame_frame_of (png : LoadedPng) (header : Header) (out_frame : Frame)
    (hv : header_valid header) (hm : frame_matches header out_frame)
    (hc : DecoderContract png) (hacc : accepted png header out_frame.rowstride) :
    read_frame png header out_frame = .done (frame_of png) ∧
      frame_matches header (frame_of png) := by
  have hcount := accepted_pixel_count png header _ hv hc hacc
  have hlen : png.pixels.length = out_frame.pixels.length := by
    have := hm.2
    omega
  obtain ⟨_, _, hn, hpal⟩ := hc hacc.1 hacc.2.1
  have hok : (read_frame png header out_frame).returned = some true :=
    (read_frame_returned_true_iff png header out_frame).2 ⟨hacc, hn, hpal, by omega⟩
  constructor
  · rw [read_frame_done png header out_frame hok]
    have hdrop : out_frame.pixels.drop png.pixels.length = [] := by
      rw [hlen]
      exact List.drop_length _
    have hrow : out_frame.rowstride = png.width := hacc.2.2.2.2.2.1.symm
    rw [hdrop, List.append_nil, hrow]
    rfl
  · exact ⟨hacc.2.2.2.2.1, hcount⟩

/-- C7 (success postcondition of read_frame): for a header with positive
int dimensions, a frame that satisfies the data-model invariants (row stride
= header width, pixel buffer of height × width bytes) and a source that
honours the decoder contract, decodes and passes all five checks, read_frame
returns true; the pixel buffer afterwards is the decoded pixel sequence, of
length header.height × header.width; the colour map is the normalised
palette; the row stride is unchanged; the frame is `frame_of png`, a
function of the decoded image alone; and a loop over this single source
issues exactly one writeFrame, carrying this frame, and ends with
EXIT_SUCCESS. -/
theorem read_frame_success (png : LoadedPng) (header : Header) (out_frame : Frame)
    (env : Env) (f : String)
    (hv : header_valid header) (hm : frame_matches header out_frame)
    (hc : DecoderContract png) (hacc : accepted png header out_frame.rowstride)
    (henv : env.lodepng f = png) :
    ∃ frame, read_frame png header out_frame = .done frame ∧
      frame.pixels = png.pixels ∧
      (frame.pixels.length : Int) = header.height * header.width ∧
      frame.colormap = normalised_palette png.info_png_color ∧
      frame.rowstride = out_frame.rowstride ∧
      frame = frame_of png ∧
      (main_loop env header out_frame [f]).trace = [.lodepng f, .writeFrame frame] ∧
      (main_loop env header out_frame [f]).ret = .ok EXIT_SUCCESS := by
  obtain ⟨hdone, hmatch⟩ := read_frame_frame_of png header out_frame hv hm hc hacc
  refine ⟨frame_of png, hdone, rfl, hmatch.2, rfl, ?_, rfl, ?_, ?_⟩
  · exact hacc.2.2.2.2.2.1
  · simp only [main_loop, henv, hdone]
  · simp only [main_loop, henv, hdone]

/-- The scenario of the specification: header 4 × 2, speed 10, a two-entry
palette and eight zero index bytes. -/
theorem read_frame_success_witness :
    ∃ frame, read_frame scenario_png scenario_header scenario_frame = .done frame ∧
      frame.pixels = [0, 0, 0, 0, 0, 0, 0, 0] ∧
      (frame.pixels.length : Int) = 2 * 4 ∧
      frame.colormap = normalised_palette scenario_png.info_png_color ∧
      frame.rowstride = 4 ∧
      frame = frame_of scenario_png ∧
      (main_loop ⟨fun _ => true, fun _ => scenario_png, fun _ => 0, fun _ => ⟨0, 0, 0⟩⟩
        scenario_header scenario_frame ["a.png"]).trace =
        [.lodepng "a.png", .writeFrame frame] ∧
      (main_loop ⟨fun _ => true, fun _ => scenario_png, fun _ => 0, fun _ => ⟨0, 0, 0⟩⟩
        scenario_header scenario_frame ["a.png"]).ret = .ok EXIT_SUCCESS :=
  read_frame_success scenario_png scenario_header scenario_frame
    ⟨fun _ => true, fun _ => scenario_png, fun _ => 0, fun _ => ⟨0, 0, 0⟩⟩ "a.png"
    (by decide) (by decide) (by decide) (by decide) rfl

/-- The colour map of the scenario, slot by slot. -/
theorem scenario_colormap (i : Fin 256) :
    (frame_of scenario_png).colormap i =
      if i.val = 0 then ⟨255, 0, 0⟩ else if i.val = 1 then ⟨0, 255, 0⟩ else ⟨0, 0, 0⟩ := by
  show normalised_palette scenario_png.info_png_color i = _
  unfold normalised_palette
  by_cases h0 : i.val = 0
  · rw [if_pos h0, if_pos (by rw [h0]; decide), h0]
    rfl
  · by_cases h1 : i.val = 1
    · rw [if_neg h0, if_pos h1, if_pos (by rw [h1]; decide), h1]
      rfl
    · rw [if_neg h0, if_neg h1, if_neg]
      show ¬ i.val < 2
      omega

/-! ## C9: no carry-over between frames -/

/-- C9 (no carry-over between frames): for a header with positive int
dimensions, two sources that honour the decoder contract and both pass
validation (so their palette sizes lie in [0, 256], in any order), and any
two frames that satisfy the data-model invariants: read_frame on the first
source and then on the second with the same frame buffer succeeds twice and
leaves exactly the frame read_frame on the second source alone leaves from
the other initial frame; that frame is `frame_of s2`, so every colour-map
slot is the one the second source's palette determines and none keeps a
value from the first. -/
theorem read_frame_no_carry_over (header : Header) (s1 s2 : LoadedPng) (frame other : Frame)
    (hv : header_valid header)
    (hf : frame_matches header frame) (ho : frame_matches header other)
    (hc1 : DecoderContract s1) (hc2 : DecoderContract s2)
    (h1 : accepted s1 header frame.rowstride) (h2 : accepted s2 header frame.rowstride) :
    ∃ f1 f2, read_frame s1 header frame = .done f1 ∧ read_frame s2 header f1 = .done f2 ∧
      read_frame s2 header other = .done f2 ∧
      f2.pixels = s2.pixels ∧
      ∀ i : Fin 256, f2.colormap i = normalised_palette s2.info_png_color i := by
  obtain ⟨hd1, hm1⟩ := read_frame_frame_of s1 header frame hv hf hc1 h1
  have hrow1 : (frame_of s1).rowstride = frame.rowstride := by rw [hm1.1, hf.1]
  have hrowo : other.rowstride = frame.rowstride := by rw [ho.1, hf.1]
  obtain ⟨hd2, _⟩ := read_frame_frame_of s2 header (frame_of s1) hv hm1 hc2 (by rw [hrow1]; exact h2)
  obtain ⟨hd3, _⟩ := read_frame_frame_of s2 header other hv ho hc2 (by rw [hrowo]; exact h2)
  exact ⟨frame_of s1, frame_of s2, hd1, hd2, hd3, rfl, fun _ => rfl⟩

theorem read_frame_no_carry_over_witness :
    ∃ f1 f2, read_frame scenario_png scenario_header scenario_frame = .done f1 ∧
      read_frame scenario_small_png scenario_header f1 = .done f2 ∧
      read_frame scenario_small_png scenario_header
        ⟨[1, 1, 1, 1, 1, 1, 1, 1], 4, fun _ => ⟨5, 5, 5⟩⟩ = .done f2 ∧
      f2.pixels = scenario_small_png.pixels ∧
      ∀ i : Fin 256, f2.colormap i = normalised_palette scenario_small_png.info_png_color i :=
  read_frame_no_carry_over scenario_header scenario_png scenario_small_png scenario_frame
    ⟨[1, 1, 1, 1, 1, 1, 1, 1], 4, fun _ => ⟨5, 5, 5⟩⟩
    (by decide) (by decide) (by decide) (by decide) (by decide) (by decide) (by decide)

/-! ## C2: order of the checks -/

theorem validation_outcome_of_accepted (png : LoadedPng) (header : Header) (out_frame : Frame)
    (h : accepted png header out_frame.rowstride) :
    validation_outcome (read_frame png header out_frame) = none := by
  rw [read_frame_of_accepted png header out_frame h]
  cases fill_frame png out_frame <;> rfl

/-- While height × width stays below 2 ^ 32 the checks of read_frame are the
checks of the reference validator, in its order: for every header with
positive int dimensions whose product is below 2 ^ 32, every image a decoder
that honours its contract delivered without error and every frame, the
validation outcome of read_frame is the outcome of the reference validator,
which reports the first of the five checks that fails; and the stride
diagnostic is written exactly when the height and width checks pass and
frame.rowstride differs from header.width. -/
theorem read_frame_validation_order (png : LoadedPng) (header : Header) (out_frame : Frame)
    (hv : header_valid header) (hprod : header.height * header.width < 4294967296)
    (hl : png.load_error = 0) (hd : png.decode_error = 0) (hc : DecoderContract png) :
    validation_outcome (read_frame png header out_frame) =
        validate_spec header (decoded_image png) out_frame.rowstride ∧
      ((read_frame png header out_frame).diag = some .stride_mismatch ↔
        (png.height : Int) = header.height ∧
          (png.width : Int) = header.width ∧ (out_frame.rowstride : Int) ≠ header.width) := by
  obtain ⟨hw0, hw1, hh0, hh1⟩ := hv
  obtain ⟨_, c1, hpng, _⟩ := hc hl hd
  have ew := to_unsigned_of_range header.width (by omega) (by omega)
  have eh := to_unsigned_of_range header.height (by omega) (by omega)
  have c1b : ¬ png.info_raw.palettesize > 256 := by omega
  by_cases c2 : png.height = to_unsigned header.height
  swap
  · have c2s : ¬ (png.height : Int) = header.height := by
      intro h
      apply c2
      have : (png.height : Int) = (to_unsigned header.height : Int) := by rw [eh]; exact h
      exact_mod_cast this
    simp [read_frame, hl, hd, c1b, c2, validate_spec, decoded_image, validation_outcome,
      ReadResult.diag, Diag.validation_error, c1, hpng, c2s]
  have c2s : (png.height : Int) = header.height := by rw [c2, eh]
  by_cases c3 : png.width = to_unsigned header.width
  swap
  · have c3s : ¬ (png.width : Int) = header.width := by
      intro h
      apply c3
      have : (png.width : Int) = (to_unsigned header.width : Int) := by rw [ew]; exact h
      exact_mod_cast this
    simp [read_frame, hl, hd, c1b, c2, c3, validate_spec, decoded_image, validation_outcome,
      ReadResult.diag, Diag.validation_error, c1, hpng, c3s, eh]
  have c3s : (png.width : Int) = header.width := by rw [c3, ew]
  by_cases c4 : png.width = out_frame.rowstride
  swap
  · have c4s : ¬ (out_frame.rowstride : Int) = header.width := by
      intro h
      apply c4
      have : (png.width : Int) = (out_frame.rowstride : Int) := by rw [c3s, h]
      exact_mod_cast this
    simp [read_frame, hl, hd, c1b, ← c2, ← c3, c4, validate_spec, decoded_image,
      validation_outcome, ReadResult.diag, Diag.validation_error, c1, hpng, hpng, c2s, c3s, c4s]
  have c4s : (out_frame.rowstride : Int) = header.width := by rw [← c4, c3s]
  have hmul : (unsigned_mul png.height png.width : Int) = header.height * header.width := by
    unfold unsigned_mul
    push_cast
    rw [c2s, c3s]
    exact Int.emod_eq_of_lt (by positivity) hprod
  by_cases c5 : png.pixels.length = unsigned_mul png.height png.width
  swap
  · have c5s : ¬ (png.pixels.length : Int) = header.height * header.width := by
      intro h
      apply c5
      have : (png.pixels.length : Int) = (unsigned_mul png.height png.width : Int) := by
        rw [hmul]; exact h
      exact_mod_cast this
    simp [read_frame, hl, hd, c1b, ← c2, ← c3, ← c4, c5, validate_spec, decoded_image,
      validation_outcome, ReadResult.diag, Diag.validation_error, c1, hpng, hpng, c2s, c3s, c4s, c5s]
  have c5s : (png.pixels.length : Int) = header.height * header.width := by rw [c5, hmul]
  have hacc : accepted png header out_frame.rowstride := ⟨hl, hd, c1, c2, c3, c4, c5⟩
  constructor
  · rw [validation_outcome_of_accepted png header out_frame hacc]
    simp [validate_spec, decoded_image, hpng, c2s, c3s, c4s, c5s]
  · rw [read_frame_of_accepted png header out_frame hacc]
    constructor
    · intro h
      cases hf : fill_frame png out_frame <;> rw [hf] at h <;> simp [ReadResult.diag] at h
    · rintro ⟨_, _, h⟩
      exact absurd c4s h

theorem read_frame_validation_order_witness :
    validation_outcome (read_frame narrow_png scenario_header ⟨[], 7, fun _ => ⟨0, 0, 0⟩⟩) =
        validate_spec scenario_header (decoded_image narrow_png) 7 ∧
      ((read_frame narrow_png scenario_header ⟨[], 7, fun _ => ⟨0, 0, 0⟩⟩).diag =
          some .stride_mismatch ↔
        (narrow_png.height : Int) = scenario_header.height ∧
          (narrow_png.width : Int) = scenario_header.width ∧
          ((7 : Nat) : Int) ≠ scenario_header.width) :=
  read_frame_validation_order narrow_png scenario_header ⟨[], 7, fun _ => ⟨0, 0, 0⟩⟩
    (by decide) (by decide) (by decide) (by decide) (by decide)

/-- C2 (validation precedence in read_frame), the code at the failing input:
header 65536 × 65536, a 65536 × 65536 image that honours the decoder contract
(its 2 ^ 32 pixels, a one-entry palette), a frame of stride 65536. The
reference validator, running the five checks in the fixed order, accepts:
the pixel count is height × width. read_frame compares the count with the
32-bit product 0 and reports the pixel-count mismatch, so its validation
outcome is not that of the reference validator. -/
theorem read_frame_validation_at_wrap :
    header_valid huge_header ∧ huge_png.load_error = 0 ∧ huge_png.decode_error = 0 ∧
      DecoderContract huge_png ∧
      validate_spec huge_header (decoded_image huge_png) 65536 = none ∧
      validation_outcome (read_frame huge_png huge_header ⟨[], 65536, fun _ => ⟨0, 0, 0⟩⟩) =
        some .PixelCountMismatch ∧
      validation_outcome (read_frame huge_png huge_header ⟨[], 65536, fun _ => ⟨0, 0, 0⟩⟩) ≠
        validate_spec huge_header (decoded_image huge_png) 65536 := by
  have hlen : huge_png.pixels.length = 4294967296 := by
    show (List.replicate 4294967296 0).length = 4294967296
    rw [List.length_replicate]
  have hspec : validate_spec huge_header (decoded_image huge_png) 65536 = none := ?spec
  have hcode : validation_outcome
      (read_frame huge_png huge_header ⟨[], 65536, fun _ => ⟨0, 0, 0⟩⟩) =
      some .PixelCountMismatch := ?code
  have hcontract : DecoderContract huge_png := by
    intro _ _
    refine ⟨?_, by decide, by decide, by decide⟩
    rw [hlen]
    decide
  refine ⟨by decide, by decide, by decide, hcontract, hspec, hcode, ?_⟩
  · rw [hspec, hcode]
    exact fun h => Option.noConfusion h
  case spec =>
    unfold validate_spec
    rw [if_neg (by decide), if_neg (by decide), if_neg (by decide), if_neg (by decide),
      if_neg]
    show ¬ ¬ ((huge_png.pixels.length : Nat) : Int) = huge_header.height * huge_header.width
    rw [hlen]
    decide
  case code =>
    unfold read_frame
    rw [if_neg (by decide), if_neg (by decide), if_neg (by decide), if_neg (by decide),
      if_neg (by decide), if_neg (by decide), if_pos]
    · rfl
    · rw [hlen]
      decide

/-! ## The loop of main -/

theorem unsigned_mul_of_header (header : Header) (hv : header_valid header)
    (hprod : header.height * header.width < 4294967296) :
    (unsigned_mul (to_unsigned header.height) (to_unsigned header.width) : Int) =
      header.height * header.width := by
  obtain ⟨hw0, hw1, hh0, hh1⟩ := hv
  have ew := to_unsigned_of_range header.width (by omega) (by omega)
  have eh := to_unsigned_of_range header.height (by omega) (by omega)
  unfold unsigned_mul
  push_cast
  rw [ew, eh]
  exact Int.emod_eq_of_lt (by positivity) hprod

/-- On a frame that satisfies the invariants, for a header whose pixel count
fits 32 bits, a call that returns true leaves `frame_of png`. -/
theorem read_frame_done_frame_of (png : LoadedPng) (header : Header) (out_frame : Frame)
    (hv : header_valid header) (hprod : header.height * header.width < 4294967296)
    (hm : frame_matches header out_frame)
    (hok : (read_frame png header out_frame).returned = some true) :
    read_frame png header out_frame = .done (frame_of png) ∧
      frame_matches header (frame_of png) := by
  obtain ⟨hacc, _, _, _⟩ := (read_frame_returned_true_iff png header out_frame).1 hok
  obtain ⟨_, _, _, h4, h5, h6, h7⟩ := hacc
  have hcount : (png.pixels.length : Int) = header.height * header.width := by
    rw [h7, h4, h5]
    exact unsigned_mul_of_header header hv hprod
  have hlen : png.pixels.length = out_frame.pixels.length := by
    have := hm.2
    omega
  constructor
  · rw [read_frame_done png header out_frame hok]
    have hdrop : out_frame.pixels.drop png.pixels.length = [] := by
      rw [hlen]
      exact List.drop_length _
    rw [hdrop, List.append_nil, ← h6]
    rfl
  · exact ⟨h5, hcount⟩

/-- What `read_frame` returns depends on the frame only through its row
stride and the size of its pixel buffer. -/
theorem read_frame_returned_congr (png : LoadedPng) (header : Header) (f g : Frame)
    (hrow : f.rowstride = g.rowstride) (hlen : f.pixels.length = g.pixels.length) :
    (read_frame png header f).returned = (read_frame png header g).returned := by
  have ht := read_frame_returned_true_iff png header f
  have hf := read_frame_returned_false_iff png header f
  have ht2 := read_frame_returned_true_iff png header g
  have hf2 := read_frame_returned_false_iff png header g
  rw [hrow, hlen] at ht
  rw [hrow] at hf
  cases h1 : (read_frame png header f).returned with
  | none =>
    cases h2 : (read_frame png header g).returned with
    | none => rfl
    | some b =>
      cases b with
      | true => rw [ht.2 (ht2.1 h2)] at h1; cases h1
      | false => rw [hf.2 (hf2.1 h2)] at h1; cases h1
  | some b =>
    cases b with
    | true => rw [ht2.2 (ht.1 h1)]
    | false => rw [hf2.2 (hf.1 h1)]

/-- The diagnostic of `read_frame` depends on the frame only through its
row stride. -/
theorem read_frame_diag_congr (png : LoadedPng) (header : Header) (f g : Frame)
    (hrow : f.rowstride = g.rowstride) :
    (read_frame png header f).diag = (read_frame png header g).diag := by
  by_cases hacc : accepted png header f.rowstride
  · rw [read_frame_of_accepted png header f hacc,
      read_frame_of_accepted png header g (by rw [← hrow]; exact hacc)]
    cases fill_frame png f <;> cases fill_frame png g <;> rfl
  · unfold read_frame
    rw [hrow]
    repeat' split
    all_goals rfl

theorem frame_matches_congr (header : Header) (f g : Frame)
    (hf : frame_matches header f) (hg : frame_matches header g) :
    f.rowstride = g.rowstride ∧ f.pixels.length = g.pixels.length := by
  obtain ⟨h1, h2⟩ := hf
  obtain ⟨h3, h4⟩ := hg
  constructor
  · rw [h1, h3]
  · omega

/-- The loop on a batch whose first sources are all ingested: their events,
then the loop on the remaining sources from a frame that still satisfies
the invariants. -/
theorem main_loop_ingest (env : Env) (header : Header)
    (hv : header_valid header) (hprod : header.height * header.width < 4294967296) :
    ∀ (pre rest : List String) (frame : Frame), frame_matches header frame →
      (∀ s ∈ pre, (read_frame (env.lodepng s) header frame).returned = some true) →
      ∃ fr, frame_matches header fr ∧
        (main_loop env header frame (pre ++ rest)).trace =
          ingest_events env pre ++ (main_loop env header fr rest).trace ∧
        (main_loop env header frame (pre ++ rest)).ret = (main_loop env header fr rest).ret := by
  intro pre
  induction pre with
  | nil =>
    intro rest frame hm _
    exact ⟨frame, hm, rfl, rfl⟩
  | cons s tl ih =>
    intro rest frame hm hall
    have hs := hall s (List.mem_cons_self s tl)
    obtain ⟨hdone, hm2⟩ := read_frame_done_frame_of _ header frame hv hprod hm hs
    obtain ⟨e1, e2⟩ := frame_matches_congr header frame _ hm hm2
    have hall2 : ∀ t ∈ tl,
        (read_frame (env.lodepng t) header (frame_of (env.lodepng s))).returned = some true := by
      intro t ht
      rw [← read_frame_returned_congr (env.lodepng t) header frame _ e1 e2]
      exact hall t (List.mem_cons_of_mem s ht)
    obtain ⟨fr, hfr, htr, hret⟩ := ih rest (frame_of (env.lodepng s)) hm2 hall2
    refine ⟨fr, hfr, ?_, ?_⟩
    · simp only [List.cons_append, main_loop, hdone, ingest_events]
      show Event.lodepng s :: Event.writeFrame _ ::
        (main_loop env header _ (tl ++ rest)).trace = _
      rw [htr]
    · simp only [List.cons_append, main_loop, hdone]
      exact hret

/-- The loop at a source for which `read_frame` returns false. -/
theorem main_loop_break (env : Env) (header : Header) (frame : Frame) (bad : String)
    (post : List String)
    (hbad : (read_frame (env.lodepng bad) header frame).returned = some false) :
    ∃ d, (read_frame (env.lodepng bad) header frame).diag = some d ∧
      (main_loop env header frame (bad :: post)).trace =
        [.lodepng bad, .diag d, .read_failed bad] ∧
      (main_loop env header frame (bad :: post)).ret = .ok EXIT_FAILURE := by
  have hacc := (read_frame_returned_false_iff _ header frame).1 hbad
  obtain ⟨d, hd⟩ := read_frame_of_not_accepted _ header frame hacc
  refine ⟨d, by rw [hd]; rfl, ?_, ?_⟩
  · simp only [main_loop, hd]
  · simp only [main_loop, hd]

/-! ## main up to its loop -/

theorem main_frame_matches (opts : Options) (env : Env) (hr : reaches_loop opts env) :
    header_valid (main_header opts) ∧
      (main_header opts).height * (main_header opts).width < 4294967296 ∧
      frame_matches (main_header opts) (main_frame opts env) := by
  obtain ⟨_, ⟨_, hh, hw, _, _⟩, _, hprod⟩ := hr
  have hw2 : opts.width < 2147483648 := by nlinarith
  have hh2 : opts.height < 2147483648 := by nlinarith
  have hcomm : opts.height * opts.width = opts.width * opts.height := Int.mul_comm _ _
  refine ⟨⟨hw, hw2, hh, hh2⟩, ?_, rfl, ?_⟩
  · show opts.height * opts.width < 4294967296
    omega
  · show ((new_pixels env (opts.width * opts.height).toNat).length : Int) =
      opts.height * opts.width
    unfold new_pixels
    rw [List.length_map, List.length_range, Int.toNat_of_nonneg (by positivity), hcomm]

/-- A run that reaches the loop is the prologue, the loop and, unless the
loop ends in a fault, the epilogue. -/
theorem main_of_reaches_loop (opts : Options) (env : Env) (hr : reaches_loop opts env) :
    main opts env =
      match (main_loop env (main_header opts) (main_frame opts env) opts.input_files).ret with
      | .error fault =>
        { trace := [.fopen opts.output true, .writeHeader (main_header opts),
              .new_pixels (opts.width * opts.height).toNat]
            ++ (main_loop env (main_header opts) (main_frame opts env) opts.input_files).trace,
          status := .undefined fault }
      | .ok ret =>
        { trace := [.fopen opts.output true, .writeHeader (main_header opts),
              .new_pixels (opts.width * opts.height).toNat]
            ++ (main_loop env (main_header opts) (main_frame opts env) opts.input_files).trace
            ++ [.delete_pixels, .fclose],
          status := .exited ret } := by
  obtain ⟨hhelp, ⟨hout, hh, hw, hs, hin⟩, hopen, hprod⟩ := hr
  have hh2 : ¬ opts.height ≤ 0 := by omega
  have hw2 : ¬ opts.width ≤ 0 := by omega
  have hs2 : ¬ opts.speed ≤ 0 := by omega
  have hmul : int_mul opts.width opts.height = .ok (opts.width * opts.height) := by
    unfold int_mul
    rw [if_pos]
    constructor
    · have : 0 < opts.width * opts.height := by positivity
      omega
    · exact hprod
  unfold main
  simp only [hhelp, hout, hh2, hw2, hs2, hin, hopen, hmul, Bool.false_eq_true, if_false,
    Bool.not_true]
  rfl

/-! ## Observations on traces -/

theorem frames_written_append (a b : List Event) :
    frames_written (a ++ b) = frames_written a ++ frames_written b := by
  induction a with
  | nil => rfl
  | cons e tl ih => cases e <;> simp [frames_written, ih]

theorem headers_written_append (a b : List Event) :
    headers_written (a ++ b) = headers_written a ++ headers_written b := by
  induction a with
  | nil => rfl
  | cons e tl ih => cases e <;> simp [headers_written, ih]

theorem files_decoded_append (a b : List Event) :
    files_decoded (a ++ b) = files_decoded a ++ files_decoded b := by
  induction a with
  | nil => rfl
  | cons e tl ih => cases e <;> simp [files_decoded, ih]

theorem diagnostics_append (a b : List Event) :
    diagnostics (a ++ b) = diagnostics a ++ diagnostics b := by
  induction a with
  | nil => rfl
  | cons e tl ih => cases e <;> simp [diagnostics, ih]

theorem frames_written_ingest (env : Env) (files : List String) :
    frames_written (ingest_events env files) = files.map (fun f => frame_of (env.lodepng f)) := by
  induction files with
  | nil => rfl
  | cons f tl ih => simp [ingest_events, frames_written, ih]

theorem files_decoded_ingest (env : Env) (files : List String) :
    files_decoded (ingest_events env files) = files := by
  induction files with
  | nil => rfl
  | cons f tl ih => simp [ingest_events, files_decoded, ih]

theorem diagnostics_ingest (env : Env) (files : List String) :
    diagnostics (ingest_events env files) = [] := by
  induction files with
  | nil => rfl
  | cons f tl ih => simp [ingest_events, diagnostics, ih]

/-- The loop never writes a header and never opens a file. -/
theorem main_loop_no_header (env : Env) (header : Header) :
    ∀ (files : List String) (frame : Frame),
      headers_written (main_loop env header frame files).trace = [] ∧
        open_attempts (main_loop env header frame files).trace = [] := by
  intro files
  induction files with
  | nil => intro frame; exact ⟨rfl, rfl⟩
  | cons f tl ih =>
    intro frame
    simp only [main_loop]
    cases read_frame (env.lodepng f) header frame with
    | failed d fr => exact ⟨rfl, rfl⟩
    | undefined fault => exact ⟨rfl, rfl⟩
    | done fr => exact ⟨(ih fr).1, (ih fr).2⟩

/-- A list either satisfies a predicate throughout or has a first element
that does not. -/
theorem first_failure {α : Type} (p : α → Prop) [DecidablePred p] :
    ∀ l : List α, (∀ x ∈ l, p x) ∨
      ∃ pre bad post, l = pre ++ bad :: post ∧ (∀ x ∈ pre, p x) ∧ ¬ p bad := by
  intro l
  induction l with
  | nil => left; intro x hx; cases hx
  | cons a tl ih =>
    by_cases ha : p a
    · rcases ih with hall | ⟨pre, bad, post, hl, hpre, hbad⟩
      · left
        intro x hx
        rcases List.mem_cons.1 hx with h | h
        · rw [h]; exact ha
        · exact hall x h
      · right
        refine ⟨a :: pre, bad, post, by rw [hl]; rfl, ?_, hbad⟩
        intro x hx
        rcases List.mem_cons.1 hx with h | h
        · rw [h]; exact ha
        · exact hpre x h
    · right
      refine ⟨[], a, tl, rfl, ?_, ha⟩
      intro x hx
      cases hx

/-! ## Runs that reach the loop -/

/-- A run in which every source is ingested. -/
theorem main_all_ingested (opts : Options) (env : Env) (hr : reaches_loop opts env)
    (hall : ∀ s ∈ opts.input_files,
      (read_frame (env.lodepng s) (main_header opts) (main_frame opts env)).returned =
        some true) :
    main opts env =
      { trace := [.fopen opts.output true, .writeHeader (main_header opts),
            .new_pixels (opts.width * opts.height).toNat]
          ++ ingest_events env opts.input_files ++ [.delete_pixels, .fclose],
        status := .exited EXIT_SUCCESS } := by
  obtain ⟨hv, hprod, hm⟩ := main_frame_matches opts env hr
  obtain ⟨fr, _, htr, hret⟩ := main_loop_ingest env (main_header opts) hv hprod
    opts.input_files [] (main_frame opts env) hm hall
  rw [List.append_nil] at htr hret
  have htr2 : (main_loop env (main_header opts) (main_frame opts env) opts.input_files).trace =
      ingest_events env opts.input_files := by
    rw [htr]
    simp [main_loop]
  have hret2 : (main_loop env (main_header opts) (main_frame opts env) opts.input_files).ret =
      .ok EXIT_SUCCESS := by
    rw [hret]
    rfl
  rw [main_of_reaches_loop opts env hr, hret2, htr2]

/-- A run whose first sources are ingested and whose next source is
rejected. -/
theorem main_first_rejected (opts : Options) (env : Env) (pre : List String) (bad : String)
    (post : List String) (hr : reaches_loop opts env)
    (hfiles : opts.input_files = pre ++ bad :: post)
    (hpre : ∀ s ∈ pre,
      (read_frame (env.lodepng s) (main_header opts) (main_frame opts env)).returned =
        some true)
    (hbad : (read_frame (env.lodepng bad) (main_header opts) (main_frame opts env)).returned =
      some false) :
    ∃ d, (read_frame (env.lodepng bad) (main_header opts) (main_frame opts env)).diag = some d ∧
      main opts env =
        { trace := [.fopen opts.output true, .writeHeader (main_header opts),
              .new_pixels (opts.width * opts.height).toNat]
            ++ (ingest_events env pre ++ [.lodepng bad, .diag d, .read_failed bad])
            ++ [.delete_pixels, .fclose],
          status := .exited EXIT_FAILURE } := by
  obtain ⟨hv, hprod, hm⟩ := main_frame_matches opts env hr
  obtain ⟨fr, hfr, htr, hret⟩ := main_loop_ingest env (main_header opts) hv hprod
    pre (bad :: post) (main_frame opts env) hm hpre
  obtain ⟨e1, e2⟩ := frame_matches_congr (main_header opts) (main_frame opts env) fr hm hfr
  have hbad2 : (read_frame (env.lodepng bad) (main_header opts) fr).returned = some false := by
    rw [← read_frame_returned_congr _ _ _ _ e1 e2]
    exact hbad
  obtain ⟨d, hd, htr3, hret3⟩ := main_loop_break env (main_header opts) fr bad post hbad2
  refine ⟨d, ?_, ?_⟩
  · rw [read_frame_diag_congr _ _ _ _ e1]
    exact hd
  · rw [main_of_reaches_loop opts env hr, hfiles, hret, hret3, htr, htr3]

/-! ## C5: pipeline success -/

/-- In a run that reaches the loop, a source that honours the decoder
contract and passes the checks makes `read_frame` return true. -/
theorem returned_true_of_accepted (opts : Options) (env : Env) (png : LoadedPng)
    (hr : reaches_loop opts env) (hc : DecoderContract png)
    (hacc : accepted png (main_header opts) (to_unsigned opts.width)) :
    (read_frame png (main_header opts) (main_frame opts env)).returned = some true := by
  obtain ⟨hv, _, hm⟩ := main_frame_matches opts env hr
  obtain ⟨hdone, _⟩ := read_frame_frame_of png (main_header opts) (main_frame opts env) hv hm hc
    hacc
  rw [hdone]
  rfl

/-- The pipeline while width × height stays below 2 ^ 31: for every valid
configuration whose output opens and every batch of N ≥ 1 sources each of
which honours the decoder contract and decodes without error to an image
with width = header.width, height = header.height and a palette of at most
256 entries, main exits with code 0, the decoder is run on the N sources in
input order, and the encoder receives exactly N writeFrame calls, the i-th
carrying the frame built from the i-th source. -/
theorem main_pipeline_success (opts : Options) (env : Env)
    (hhelp : opts.help = false) (hcfg : config_valid opts)
    (hopen : env.fopen opts.output = true)
    (hprod : opts.width * opts.height < 2147483648)
    (hsrc : ∀ f ∈ opts.input_files,
      (env.lodepng f).load_error = 0 ∧ (env.lodepng f).decode_error = 0 ∧
        ((env.lodepng f).width : Int) = opts.width ∧
        ((env.lodepng f).height : Int) = opts.height ∧
        (env.lodepng f).info_png_color.palettesize ≤ 256 ∧
        DecoderContract (env.lodepng f)) :
    (main opts env).status = .exited 0 ∧
      frames_written (main opts env).trace =
        opts.input_files.map (fun f => frame_of (env.lodepng f)) ∧
      (frames_written (main opts env).trace).length = opts.input_files.length ∧
      files_decoded (main opts env).trace = opts.input_files := by
  have hr : reaches_loop opts env := ⟨hhelp, hcfg, hopen, hprod⟩
  obtain ⟨hv, hprod2, hm⟩ := main_frame_matches opts env hr
  have hall : ∀ s ∈ opts.input_files,
      (read_frame (env.lodepng s) (main_header opts) (main_frame opts env)).returned =
        some true := by
    intro s hs
    obtain ⟨h1, h2, h3, h4, _, hc⟩ := hsrc s hs
    obtain ⟨hpx, hraw, _, _⟩ := hc h1 h2
    have hw0 : 0 < opts.width := hv.1
    have hw1 : opts.width < 2147483648 := hv.2.1
    have hh0 : 0 < opts.height := hv.2.2.1
    have hh1 : opts.height < 2147483648 := hv.2.2.2
    have hprod3 : opts.height * opts.width < 4294967296 := hprod2
    have ew := to_unsigned_of_range opts.width (by omega) (by omega)
    have eh := to_unsigned_of_range opts.height (by omega) (by omega)
    have a4 : (env.lodepng s).height = to_unsigned opts.height := by
      have : ((env.lodepng s).height : Int) = (to_unsigned opts.height : Int) := by
        rw [eh]; exact h4
      exact_mod_cast this
    have a5 : (env.lodepng s).width = to_unsigned opts.width := by
      have : ((env.lodepng s).width : Int) = (to_unsigned opts.width : Int) := by
        rw [ew]; exact h3
      exact_mod_cast this
    have a7 : (env.lodepng s).pixels.length =
        unsigned_mul (env.lodepng s).height (env.lodepng s).width := by
      have hm2 : (unsigned_mul (to_unsigned opts.height) (to_unsigned opts.width) : Int) =
          opts.height * opts.width :=
        unsigned_mul_of_header (main_header opts) hv hprod2
      have : ((env.lodepng s).pixels.length : Int) =
          (unsigned_mul (env.lodepng s).height (env.lodepng s).width : Int) := by
        rw [a4, a5, hm2, hpx]
        push_cast
        rw [h3, h4]
        exact Int.mul_comm _ _
      exact_mod_cast this
    exact returned_true_of_accepted opts env _ hr hc ⟨h1, h2, hraw, a4, a5, a5, a7⟩
  rw [main_all_ingested opts env hr hall]
  refine ⟨rfl, ?_, ?_, ?_⟩
  · simp [frames_written_append, frames_written_ingest, frames_written]
  · simp [frames_written_append, frames_written_ingest, frames_written]
  · simp [files_decoded_append, files_decoded_ingest, files_decoded]

set_option maxRecDepth 100000 in
/-- A batch of two sources with different palettes: two writeFrame calls,
the first with the frame of the first source, the second with the frame of
the second. -/
theorem main_pipeline_success_witness :
    (main batch_opts batch_env).status = .exited 0 ∧
      frames_written (main batch_opts batch_env).trace =
        ["a.png", "s.png"].map (fun f => frame_of (batch_env.lodepng f)) ∧
      (frames_written (main batch_opts batch_env).trace).length = 2 ∧
      files_decoded (main batch_opts batch_env).trace = ["a.png", "s.png"] :=
  main_pipeline_success batch_opts batch_env (by decide) (by decide) (by decide)
    (by decide) (by decide)

/-- C5 (pipeline success), the code at the failing input: a valid
configuration of 65536 × 65536 frames, an output that opens, a batch of one
source that honours the decoder contract and decodes without error to a
65536 × 65536 image with its 2 ^ 32 pixels and a one-entry palette. The
product `width * height` that sizes the pixel buffer leaves the `int` range
before the loop: the run does not end with exit code 0 and no frame reaches
the encoder. -/
theorem main_pipeline_at_overflow :
    huge_opts.help = false ∧ config_valid huge_opts ∧
      huge_env.fopen huge_opts.output = true ∧
      (∀ f ∈ huge_opts.input_files,
        (huge_env.lodepng f).load_error = 0 ∧ (huge_env.lodepng f).decode_error = 0 ∧
          ((huge_env.lodepng f).width : Int) = huge_opts.width ∧
          ((huge_env.lodepng f).height : Int) = huge_opts.height ∧
          (huge_env.lodepng f).info_png_color.palettesize ≤ 256 ∧
          DecoderContract (huge_env.lodepng f)) ∧
      (main huge_opts huge_env).status = .undefined .int_overflow ∧
      (main huge_opts huge_env).status ≠ .exited 0 ∧
      frames_written (main huge_opts huge_env).trace = [] := by
  have hlen : huge_png.pixels.length = 4294967296 := by
    show (List.replicate 4294967296 0).length = 4294967296
    rw [List.length_replicate]
  have hc : DecoderContract huge_png := by
    intro _ _
    refine ⟨?_, by decide, by decide, by decide⟩
    rw [hlen]
    decide
  refine ⟨by decide, by decide, by decide, ?_, by decide, by decide, rfl⟩
  intro f _
  show huge_png.load_error = 0 ∧ huge_png.decode_error = 0 ∧
    (huge_png.width : Int) = huge_opts.width ∧ (huge_png.height : Int) = huge_opts.height ∧
    huge_png.info_png_color.palettesize ≤ 256 ∧ DecoderContract huge_png
  exact ⟨rfl, rfl, by decide, by decide, by decide, hc⟩

/-! ## C6: fail-fast -/

/-- C6 (fail-fast): in every run of main that reaches its loop, if the batch
is `pre ++ bad :: post` where read_frame returns true for every source of
`pre` and false (load, decode or validation failure) for `bad`, then the
encoder receives writeFrame calls for exactly the sources of `pre`, in
order, each carrying the frame of its source; lodepng is run on the sources
of `pre` and on `bad` and on no source of `post`; the only diagnostic is the
one of `bad`; and main returns EXIT_FAILURE, which is not 0. -/
theorem main_fail_fast (opts : Options) (env : Env) (pre : List String) (bad : String)
    (post : List String) (hr : reaches_loop opts env)
    (hfiles : opts.input_files = pre ++ bad :: post)
    (hpre : ∀ s ∈ pre,
      (read_frame (env.lodepng s) (main_header opts) (main_frame opts env)).returned =
        some true)
    (hbad : (read_frame (env.lodepng bad) (main_header opts) (main_frame opts env)).returned =
      some false) :
    frames_written (main opts env).trace = pre.map (fun s => frame_of (env.lodepng s)) ∧
      files_decoded (main opts env).trace = pre ++ [bad] ∧
      (diagnostics (main opts env).trace).map some =
        [(read_frame (env.lodepng bad) (main_header opts) (main_frame opts env)).diag] ∧
      (main opts env).status = .exited EXIT_FAILURE ∧ EXIT_FAILURE ≠ 0 := by
  obtain ⟨d, hd, hmain⟩ := main_first_rejected opts env pre bad post hr hfiles hpre hbad
  rw [hmain, hd]
  refine ⟨?_, ?_, ?_, rfl, by decide⟩
  · simp [frames_written_append, frames_written_ingest, frames_written]
  · simp [files_decoded_append, files_decoded_ingest, files_decoded]
  · simp [diagnostics_append, diagnostics_ingest, diagnostics]

set_option maxRecDepth 100000 in
/-- The batch [A valid, B wrong width, C valid]: one writeFrame (A), the
width-mismatch diagnostic for B, lodepng never run on C, EXIT_FAILURE. -/
theorem main_fail_fast_witness :
    frames_written (main fail_fast_opts scenario_env).trace =
        ["a.png"].map (fun s => frame_of (scenario_env.lodepng s)) ∧
      files_decoded (main fail_fast_opts scenario_env).trace = ["a.png"] ++ ["b.png"] ∧
      (diagnostics (main fail_fast_opts scenario_env).trace).map some =
        [some .width_mismatch] ∧
      (main fail_fast_opts scenario_env).status = .exited EXIT_FAILURE ∧ EXIT_FAILURE ≠ 0 :=
  main_fail_fast fail_fast_opts scenario_env ["a.png"] "b.png" ["c.png"]
    (by decide) (by decide) (by decide) (by decide)

/-! ## C8: exit code -/

theorem main_help (opts : Options) (env : Env) (h : opts.help = true) :
    main opts env = { trace := [.usage], status := .exited EXIT_SUCCESS } := by
  simp [main, h]

/-- A run that stops at one of the five configuration tests. -/
theorem main_config_error (opts : Options) (env : Env) (hhelp : opts.help = false)
    (hcfg : ¬ config_valid opts) :
    ∃ e, main opts env = { trace := [.config_error e], status := .exited EXIT_FAILURE } := by
  unfold main
  rw [if_neg (by simp [hhelp])]
  split
  · exact ⟨_, rfl⟩
  split
  · exact ⟨_, rfl⟩
  split
  · exact ⟨_, rfl⟩
  split
  · exact ⟨_, rfl⟩
  split
  · exact ⟨_, rfl⟩
  exfalso
  apply hcfg
  unfold config_valid
  simp_all

/-- A run whose output does not open. -/
theorem main_open_failed (opts : Options) (env : Env) (hhelp : opts.help = false)
    (hcfg : config_valid opts) (hopen : env.fopen opts.output = false) :
    main opts env =
      { trace := [.fopen opts.output false, .open_failed], status := .exited EXIT_FAILURE } := by
  obtain ⟨hout, hh, hw, hs, hin⟩ := hcfg
  have hh2 : ¬ opts.height ≤ 0 := by omega
  have hw2 : ¬ opts.width ≤ 0 := by omega
  have hs2 : ¬ opts.speed ≤ 0 := by omega
  unfold main
  simp [hhelp, hout, hh2, hw2, hs2, hin, hopen]

/-- The exit code while width × height stays below 2 ^ 31: for every
configuration whose pixel count, when the configuration is valid, is below
2 ^ 31, and every world in which each input honours the decoder contract,
main exits with code 0 if and only if help was requested, or the output
path is non-empty, height, width and speed are positive, the input list is
non-empty, the output opens, and every source decodes and passes the five
checks; in every other case main exits with EXIT_FAILURE, which is not 0. -/
theorem main_exit_code (opts : Options) (env : Env)
    (hprod : config_valid opts → opts.width * opts.height < 2147483648)
    (hdec : ∀ f ∈ opts.input_files, DecoderContract (env.lodepng f)) :
    ((main opts env).status = .exited 0 ↔
        opts.help = true ∨
          (config_valid opts ∧ env.fopen opts.output = true ∧
            ∀ f ∈ opts.input_files,
              accepted (env.lodepng f) (main_header opts) (to_unsigned opts.width))) ∧
      ((main opts env).status ≠ .exited 0 →
        (main opts env).status = .exited EXIT_FAILURE ∧ EXIT_FAILURE ≠ 0) := by
  have hne : Status.exited EXIT_FAILURE ≠ Status.exited 0 := by decide
  by_cases hhelp : opts.help = true
  · rw [main_help opts env hhelp]
    exact ⟨⟨fun _ => Or.inl hhelp, fun _ => rfl⟩, fun h => absurd rfl h⟩
  have hhelp2 : opts.help = false := by simpa using hhelp
  by_cases hcfg : config_valid opts
  swap
  · obtain ⟨e, he⟩ := main_config_error opts env hhelp2 hcfg
    rw [he]
    refine ⟨⟨fun h => absurd h hne, ?_⟩, fun _ => ⟨rfl, by decide⟩⟩
    rintro (h | ⟨h, _⟩)
    · exact absurd h hhelp
    · exact absurd h hcfg
  by_cases hopen : env.fopen opts.output = true
  swap
  · have hopen2 : env.fopen opts.output = false := by simpa using hopen
    rw [main_open_failed opts env hhelp2 hcfg hopen2]
    refine ⟨⟨fun h => absurd h hne, ?_⟩, fun _ => ⟨rfl, by decide⟩⟩
    rintro (h | ⟨_, h, _⟩)
    · exact absurd h hhelp
    · exact absurd h hopen
  have hr : reaches_loop opts env := ⟨hhelp2, hcfg, hopen, hprod hcfg⟩
  rcases first_failure
      (fun f => accepted (env.lodepng f) (main_header opts) (to_unsigned opts.width))
      opts.input_files with hall | ⟨pre, bad, post, hfiles, hpre, hbad⟩
  · have hall2 : ∀ s ∈ opts.input_files,
        (read_frame (env.lodepng s) (main_header opts) (main_frame opts env)).returned =
          some true :=
      fun s hs => returned_true_of_accepted opts env _ hr (hdec s hs) (hall s hs)
    rw [main_all_ingested opts env hr hall2]
    exact ⟨⟨fun _ => Or.inr ⟨hcfg, hopen, hall⟩, fun _ => rfl⟩, fun h => absurd rfl h⟩
  · have hpre2 : ∀ s ∈ pre,
        (read_frame (env.lodepng s) (main_header opts) (main_frame opts env)).returned =
          some true := by
      intro s hs
      have hmem : s ∈ opts.input_files := by
        rw [hfiles]
        exact List.mem_append_left _ hs
      exact returned_true_of_accepted opts env _ hr (hdec s hmem) (hpre s hs)
    have hbad2 : (read_frame (env.lodepng bad) (main_header opts)
        (main_frame opts env)).returned = some false :=
      (read_frame_returned_false_iff _ _ _).2 hbad
    obtain ⟨d, _, hmain⟩ := main_first_rejected opts env pre bad post hr hfiles hpre2 hbad2
    rw [hmain]
    refine ⟨⟨fun h => absurd h hne, ?_⟩, fun _ => ⟨rfl, by decide⟩⟩
    rintro (h | ⟨_, _, h⟩)
    · exact absurd h hhelp
    · exact absurd (h bad (by rw [hfiles]; simp)) hbad

set_option maxRecDepth 100000 in
theorem main_exit_code_witness :
    ((main fail_fast_opts scenario_env).status = .exited 0 ↔
        fail_fast_opts.help = true ∨
          (config_valid fail_fast_opts ∧ scenario_env.fopen fail_fast_opts.output = true ∧
            ∀ f ∈ fail_fast_opts.input_files,
              accepted (scenario_env.lodepng f) (main_header fail_fast_opts)
                (to_unsigned fail_fast_opts.width))) ∧
      ((main fail_fast_opts scenario_env).status ≠ .exited 0 →
        (main fail_fast_opts scenario_env).status = .exited EXIT_FAILURE ∧ EXIT_FAILURE ≠ 0) :=
  main_exit_code fail_fast_opts scenario_env (by decide) (by decide)

/-- C8 (process exit code of main), the code at the failing input: no help
requested, a non-empty output path that opens, height 32768, width 65536 and
speed 10, all positive, a non-empty input list, and one source that honours
the decoder contract, decodes and passes the five checks. The product
`width * height` that sizes the pixel buffer is 2 ^ 31, outside the `int`
range; main does not exit with code 0 (it does not reach a `return`). -/
theorem main_exit_code_at_overflow :
    large_opts.help = false ∧ config_valid large_opts ∧
      large_env.fopen large_opts.output = true ∧
      (∀ f ∈ large_opts.input_files,
        DecoderContract (large_env.lodepng f) ∧
          accepted (large_env.lodepng f) (main_header large_opts)
            (to_unsigned large_opts.width)) ∧
      (main large_opts large_env).status = .undefined .int_overflow ∧
      (main large_opts large_env).status ≠ .exited 0 := by
  have hlen : large_png.pixels.length = 2147483648 := by
    show (List.replicate 2147483648 0).length = 2147483648
    rw [List.length_replicate]
  have hc : DecoderContract large_png := by
    intro _ _
    refine ⟨?_, by decide, by decide, by decide⟩
    rw [hlen]
    decide
  have hacc : accepted large_png (main_header large_opts) (to_unsigned large_opts.width) := by
    refine ⟨rfl, rfl, by decide, by decide, by decide, by decide, ?_⟩
    rw [hlen]
    decide
  refine ⟨by decide, by decide, by decide, ?_, by decide, by decide⟩
  intro f _
  exact ⟨hc, hacc⟩

/-! ## C10: encoder call protocol -/

/-- Once the output is open the trace starts with the `fopen` and the single
`writeHeader`; nothing after them writes a header or opens a file. -/
theorem main_trace_opened (opts : Options) (env : Env) (hhelp : opts.help = false)
    (hcfg : config_valid opts) (hopen : env.fopen opts.output = true) :
    ∃ tail, (main opts env).trace =
        .fopen opts.output true :: .writeHeader (main_header opts) :: tail ∧
      headers_written tail = [] := by
  obtain ⟨hout, hh, hw, hs, hin⟩ := hcfg
  have hh2 : ¬ opts.height ≤ 0 := by omega
  have hw2 : ¬ opts.width ≤ 0 := by omega
  have hs2 : ¬ opts.speed ≤ 0 := by omega
  unfold main
  simp only [hhelp, hout, hh2, hw2, hs2, hin, hopen, Bool.false_eq_true, if_false,
    Bool.not_true]
  cases int_mul opts.width opts.height with
  | error fault => exact ⟨[], rfl, rfl⟩
  | ok count =>
    simp only []
    have hno := (main_loop_no_header env
      { frames := 0, width := opts.width, height := opts.height, speed := opts.speed }
      opts.input_files
      { pixels := new_pixels env count.toNat, rowstride := to_unsigned opts.width,
        colormap := env.colormap }).1
    cases hret : (main_loop env
      { frames := 0, width := opts.width, height := opts.height, speed := opts.speed }
      { pixels := new_pixels env count.toNat, rowstride := to_unsigned opts.width,
        colormap := env.colormap } opts.input_files).ret with
    | error fault =>
      refine ⟨_, rfl, ?_⟩
      simp only [headers_written]
      exact hno
    | ok ret =>
      refine ⟨_, rfl, ?_⟩
      simp only [headers_written]
      show headers_written ([] ++ (main_loop env _ _ opts.input_files).trace ++
        [Event.delete_pixels, Event.fclose]) = []
      rw [List.nil_append, headers_written_append, hno]
      rfl

/-- C10 (encoder call protocol): in every run of main, writeHeader is called
at most once and every writeFrame comes after a writeHeader; in every run
that passes the configuration tests and opens the output, writeHeader is
called exactly once, with the header whose width, height and speed are the
configured values; in every run that ends in a configuration error the trace
has no writeHeader, no writeFrame and no attempt to open the output; and in
every run whose output does not open the trace has no writeHeader and no
writeFrame. -/
theorem main_encoder_protocol (opts : Options) (env : Env) :
    (headers_written (main opts env).trace).length ≤ 1 ∧
      (∀ pre fr post, (main opts env).trace = pre ++ .writeFrame fr :: post →
        headers_written pre ≠ []) ∧
      (opts.help = false → config_valid opts → env.fopen opts.output = true →
        headers_written (main opts env).trace =
          [{ frames := 0, width := opts.width, height := opts.height, speed := opts.speed }]) ∧
      (opts.help = false → ¬ config_valid opts →
        headers_written (main opts env).trace = [] ∧
          frames_written (main opts env).trace = [] ∧
          open_attempts (main opts env).trace = []) ∧
      (opts.help = false → config_valid opts → env.fopen opts.output = false →
        headers_written (main opts env).trace = [] ∧
          frames_written (main opts env).trace = []) := by
  have hopened : opts.help = false → config_valid opts → env.fopen opts.output = true →
      headers_written (main opts env).trace = [main_header opts] := by
    intro h1 h2 h3
    obtain ⟨tail, htr, hno⟩ := main_trace_opened opts env h1 h2 h3
    rw [htr]
    simp only [headers_written, hno]
  have hconfig : opts.help = false → ¬ config_valid opts →
      headers_written (main opts env).trace = [] ∧
        frames_written (main opts env).trace = [] ∧
        open_attempts (main opts env).trace = [] := by
    intro h1 h2
    obtain ⟨e, he⟩ := main_config_error opts env h1 h2
    rw [he]
    exact ⟨rfl, rfl, rfl⟩
  have hclosed : opts.help = false → config_valid opts → env.fopen opts.output = false →
      headers_written (main opts env).trace = [] ∧
        frames_written (main opts env).trace = [] := by
    intro h1 h2 h3
    rw [main_open_failed opts env h1 h2 h3]
    exact ⟨rfl, rfl⟩
  refine ⟨?_, ?_, hopened, hconfig, hclosed⟩
  · by_cases hhelp : opts.help = true
    · rw [main_help opts env hhelp]
      simp [headers_written]
    have hhelp2 : opts.help = false := by simpa using hhelp
    by_cases hcfg : config_valid opts
    swap
    · rw [(hconfig hhelp2 hcfg).1]
      simp
    by_cases hopen : env.fopen opts.output = true
    · rw [hopened hhelp2 hcfg hopen]
      simp
    · rw [(hclosed hhelp2 hcfg (by simpa using hopen)).1]
      simp
  · intro pre fr post htr
    by_cases hhelp : opts.help = true
    · rw [main_help opts env hhelp] at htr
      rcases pre with _ | ⟨a, _ | ⟨b, tl⟩⟩ <;> simp at htr
    have hhelp2 : opts.help = false := by simpa using hhelp
    by_cases hcfg : config_valid opts
    swap
    · obtain ⟨e, he⟩ := main_config_error opts env hhelp2 hcfg
      rw [he] at htr
      rcases pre with _ | ⟨a, _ | ⟨b, tl⟩⟩ <;> simp at htr
    by_cases hopen : env.fopen opts.output = true
    · obtain ⟨tail, htr2, _⟩ := main_trace_opened opts env hhelp2 hcfg hopen
      rw [htr2] at htr
      rcases pre with _ | ⟨a, _ | ⟨b, tl⟩⟩
      · simp at htr
      · simp at htr
      · simp only [List.cons_append, List.cons.injEq] at htr
        obtain ⟨ha, hb, _⟩ := htr
        rw [← ha, ← hb]
        simp [headers_written]
    · rw [main_open_failed opts env hhelp2 hcfg (by simpa using hopen)] at htr
      rcases pre with _ | ⟨a, _ | ⟨b, _ | ⟨c, tl⟩⟩⟩ <;> simp at htr

set_option maxRecDepth 100000 in
/-- The protocol on the batch [A valid, B wrong width, C valid]: one header,
4 × 2 at speed 10, before the single frame. -/
theorem main_encoder_protocol_witness :
    headers_written (main fail_fast_opts scenario_env).trace =
      [{ frames := 0, width := 4, height := 2, speed := 10 }] :=
  (main_encoder_protocol fail_fast_opts scenario_env).2.2.1 (by decide) (by decide) (by decide)

/-! ## C11: resource release -/

theorem pixel_acquisitions_append (a b : List Event) :
    pixel_acquisitions (a ++ b) = pixel_acquisitions a + pixel_acquisitions b := by
  induction a with
  | nil => simp [pixel_acquisitions]
  | cons e tl ih =>
    cases e
    all_goals simp [pixel_acquisitions, ih]
    all_goals omega

theorem pixel_releases_append (a b : List Event) :
    pixel_releases (a ++ b) = pixel_releases a + pixel_releases b := by
  induction a with
  | nil => simp [pixel_releases]
  | cons e tl ih =>
    cases e
    all_goals simp [pixel_releases, ih]
    all_goals omega

theorem output_opens_append (a b : List Event) :
    output_opens (a ++ b) = output_opens a + output_opens b := by
  induction a with
  | nil => simp [output_opens]
  | cons e tl ih =>
    cases e
    all_goals simp [output_opens, ih]
    all_goals omega

theorem output_closes_append (a b : List Event) :
    output_closes (a ++ b) = output_closes a + output_closes b := by
  induction a with
  | nil => simp [output_closes]
  | cons e tl ih =>
    cases e
    all_goals simp [output_closes, ih]
    all_goals omega

/-- The loop acquires and releases nothing. -/
theorem main_loop_no_resource (env : Env) (header : Header) :
    ∀ (files : List String) (frame : Frame),
      pixel_acquisitions (main_loop env header frame files).trace = 0 ∧
        pixel_releases (main_loop env header frame files).trace = 0 ∧
        output_opens (main_loop env header frame files).trace = 0 ∧
        output_closes (main_loop env header frame files).trace = 0 := by
  intro files
  induction files with
  | nil => intro frame; exact ⟨rfl, rfl, rfl, rfl⟩
  | cons f tl ih =>
    intro frame
    simp only [main_loop]
    cases read_frame (env.lodepng f) header frame with
    | failed d fr => exact ⟨rfl, rfl, rfl, rfl⟩
    | undefined fault => exact ⟨rfl, rfl, rfl, rfl⟩
    | done fr => exact ih fr

/-- A run with a valid configuration and an open output whose pixel count
`width * height` does not fit an `int` stops at the product. -/
theorem main_int_overflow (opts : Options) (env : Env) (hhelp : opts.help = false)
    (hcfg : config_valid opts) (hopen : env.fopen opts.output = true)
    (hprod : ¬ opts.width * opts.height < 2147483648) :
    main opts env =
      { trace := [.fopen opts.output true, .writeHeader (main_header opts)],
        status := .undefined .int_overflow } := by
  obtain ⟨hout, hh, hw, hs, hin⟩ := hcfg
  have hh2 : ¬ opts.height ≤ 0 := by omega
  have hw2 : ¬ opts.width ≤ 0 := by omega
  have hs2 : ¬ opts.speed ≤ 0 := by omega
  have hmul : int_mul opts.width opts.height = .error .int_overflow := by
    unfold int_mul
    rw [if_neg]
    intro h
    exact hprod h.2
  unfold main
  simp only [hhelp, hout, hh2, hw2, hs2, hin, hopen, hmul, Bool.false_eq_true, if_false,
    Bool.not_true]
  rfl

/-- The ways a run of `main` can go. -/
theorem main_cases (opts : Options) (env : Env) :
    main opts env = { trace := [.usage], status := .exited EXIT_SUCCESS } ∨
      (∃ e, main opts env =
        { trace := [.config_error e], status := .exited EXIT_FAILURE }) ∨
      main opts env =
        { trace := [.fopen opts.output false, .open_failed], status := .exited EXIT_FAILURE } ∨
      main opts env =
        { trace := [.fopen opts.output true, .writeHeader (main_header opts)],
          status := .undefined .int_overflow } ∨
      reaches_loop opts env := by
  by_cases hhelp : opts.help = true
  · exact Or.inl (main_help opts env hhelp)
  have hhelp2 : opts.help = false := by simpa using hhelp
  by_cases hcfg : config_valid opts
  swap
  · exact Or.inr (Or.inl (main_config_error opts env hhelp2 hcfg))
  by_cases hopen : env.fopen opts.output = true
  swap
  · exact Or.inr (Or.inr (Or.inl
      (main_open_failed opts env hhelp2 hcfg (by simpa using hopen))))
  by_cases hprod : opts.width * opts.height < 2147483648
  · exact Or.inr (Or.inr (Or.inr (Or.inr ⟨hhelp2, hcfg, hopen, hprod⟩)))
  · exact Or.inr (Or.inr (Or.inr (Or.inl (main_int_overflow opts env hhelp2 hcfg hopen hprod))))

/-- C11 (resource release): in every run of main that returns (the loop
ended by exhausting the sources or by the break on the first failed source)
and that acquired the pixel buffer (such a run has opened the output handle
before), the trace is a body followed by exactly `delete[] frame.pixels` and
`fclose(output_file)`:
the body holds the one acquisition of the buffer, the one successful fopen
and every writeFrame, and no release, so the buffer is released exactly
once and the handle closed exactly once, both after the last writeFrame. -/
theorem main_resource_release (opts : Options) (env : Env) (code : Nat)
    (hexit : (main opts env).status = .exited code)
    (hacq : 0 < pixel_acquisitions (main opts env).trace) :
    ∃ body, (main opts env).trace = body ++ [.delete_pixels, .fclose] ∧
      pixel_acquisitions body = 1 ∧ output_opens body = 1 ∧
      pixel_releases body = 0 ∧ output_closes body = 0 ∧
      frames_written body = frames_written (main opts env).trace ∧
      pixel_releases (main opts env).trace = 1 ∧
      output_closes (main opts env).trace = 1 := by
  rcases main_cases opts env with h | ⟨e, h⟩ | h | h | hr
  · rw [h] at hacq
    exact absurd hacq (Nat.lt_irrefl 0)
  · rw [h] at hacq
    exact absurd hacq (Nat.lt_irrefl 0)
  · rw [h] at hacq
    exact absurd hacq (Nat.lt_irrefl 0)
  · rw [h] at hacq
    exact absurd hacq (Nat.lt_irrefl 0)
  · have hmain := main_of_reaches_loop opts env hr
    obtain ⟨h1, h2, h3, h4⟩ := main_loop_no_resource env (main_header opts) opts.input_files
      (main_frame opts env)
    cases hret : (main_loop env (main_header opts) (main_frame opts env)
        opts.input_files).ret with
    | error fault =>
      rw [hret] at hmain
      rw [hmain] at hexit
      cases hexit
    | ok ret =>
      rw [hret] at hmain
      rw [hmain]
      refine ⟨[.fopen opts.output true, .writeHeader (main_header opts),
          .new_pixels (opts.width * opts.height).toNat]
        ++ (main_loop env (main_header opts) (main_frame opts env) opts.input_files).trace,
        rfl, ?_, ?_, ?_, ?_, ?_, ?_, ?_⟩
      · rw [pixel_acquisitions_append, h1]
        rfl
      · rw [output_opens_append, h3]
        rfl
      · rw [pixel_releases_append, h2]
        rfl
      · rw [output_closes_append, h4]
        rfl
      · rw [frames_written_append, frames_written_append]
        simp [frames_written]
      · rw [pixel_releases_append, pixel_releases_append, h2]
        rfl
      · rw [output_closes_append, output_closes_append, h4]
        rfl

set_option maxRecDepth 100000 in
/-- The release on the early break: the batch [A valid, B wrong width,
C valid]. -/
theorem main_resource_release_witness :
    (main fail_fast_opts scenario_env).status = .exited 1 ∧
    ∃ body, (main fail_fast_opts scenario_env).trace = body ++ [.delete_pixels, .fclose] ∧
      pixel_acquisitions body = 1 ∧ output_opens body = 1 ∧
      pixel_releases body = 0 ∧ output_closes body = 0 ∧
      frames_written body = frames_written (main fail_fast_opts scenario_env).trace ∧
      pixel_releases (main fail_fast_opts scenario_env).trace = 1 ∧
      output_closes (main fail_fast_opts scenario_env).trace = 1 :=
  ⟨by decide, main_resource_release fail_fast_opts scenario_env 1 (by decide) (by decide)⟩

/-! ## C12: the pixel-count check -/

/-- Past the first four checks, `read_frame` writes the pixel-count
diagnostic exactly when the pixel count differs from the product
height × width reduced modulo 2 ^ 32. -/
theorem pixel_count_check_mod (png : LoadedPng) (header : Header) (out_frame : Frame)
    (hv : header_valid header)
    (h1 : png.load_error = 0) (h2 : png.decode_error = 0)
    (h3 : png.info_raw.palettesize ≤ 256)
    (h4 : png.height = to_unsigned header.height)
    (h5 : png.width = to_unsigned header.width)
    (h6 : png.width = out_frame.rowstride) :
    (read_frame png header out_frame).diag = some .pixel_count_mismatch ↔
      (png.pixels.length : Int) ≠ header.height * header.width % 4294967296 := by
  obtain ⟨hw0, hw1, hh0, hh1⟩ := hv
  have ew := to_unsigned_of_range header.width (by omega) (by omega)
  have eh := to_unsigned_of_range header.height (by omega) (by omega)
  have hmul : (unsigned_mul png.height png.width : Int) =
      header.height * header.width % 4294967296 := by
    unfold unsigned_mul
    push_cast
    rw [h4, h5, ew, eh]
  by_cases c5 : png.pixels.length = unsigned_mul png.height png.width
  · have hacc : accepted png header out_frame.rowstride := ⟨h1, h2, h3, h4, h5, h6, c5⟩
    rw [read_frame_of_accepted png header out_frame hacc]
    constructor
    · intro h
      cases hf : fill_frame png out_frame <;> rw [hf] at h <;> cases h
    · intro h
      exfalso
      apply h
      rw [c5, hmul]
  · have h3n : ¬ png.info_raw.palettesize > 256 := by omega
    have hres : read_frame png header out_frame = .failed .pixel_count_mismatch out_frame := by
      simp only [read_frame, h1, h2, h3n, ← h4, ← h5, ← h6, c5, ne_eq, not_true_eq_false,
        not_false_eq_true, if_false, if_true]
    rw [hres]
    constructor
    · intro _ h
      apply c5
      have : (png.pixels.length : Int) = (unsigned_mul png.height png.width : Int) := by
        rw [hmul]; exact h
      exact_mod_cast this
    · intro _
      rfl

/-- While height × width stays below 2 ^ 32 the pixel-count check is exact:
past the first four checks, the diagnostic is written exactly when the pixel
count differs from height × width. -/
theorem pixel_count_check_exact (png : LoadedPng) (header : Header) (out_frame : Frame)
    (hv : header_valid header) (hprod : header.height * header.width < 4294967296)
    (h1 : png.load_error = 0) (h2 : png.decode_error = 0)
    (h3 : png.info_raw.palettesize ≤ 256)
    (h4 : png.height = to_unsigned header.height)
    (h5 : png.width = to_unsigned header.width)
    (h6 : png.width = out_frame.rowstride) :
    (read_frame png header out_frame).diag = some .pixel_count_mismatch ↔
      (png.pixels.length : Int) ≠ header.height * header.width := by
  rw [pixel_count_check_mod png header out_frame hv h1 h2 h3 h4 h5 h6,
    Int.emod_eq_of_lt (Int.mul_nonneg (by have := hv.2.2.1; omega) (by have := hv.1; omega))
      hprod]

/-- C12 (pixel-count check is exact), the code at the failing input: width
and height 65536 pass the configuration checks; the 65536 × 65536 image
passes checks 1 to 4 and has exactly height × width = 2 ^ 32 pixels; the
product `height * width` computed in `unsigned` is 0, and read_frame returns
false with the pixel-count diagnostic. -/
theorem pixel_count_check_wraps :
    config_valid huge_opts ∧ main_header huge_opts = huge_header ∧
      header_valid huge_header ∧
      huge_png.info_raw.palettesize ≤ 256 ∧
      huge_png.height = to_unsigned huge_header.height ∧
      huge_png.width = to_unsigned huge_header.width ∧
      huge_png.width = (65536 : Nat) ∧
      (huge_png.pixels.length : Int) = huge_header.height * huge_header.width ∧
      unsigned_mul huge_png.height huge_png.width = 0 ∧
      read_frame huge_png huge_header ⟨[], 65536, fun _ => ⟨0, 0, 0⟩⟩ =
        .failed .pixel_count_mismatch ⟨[], 65536, fun _ => ⟨0, 0, 0⟩⟩ := by
  have hlen : huge_png.pixels.length = 4294967296 := by
    show (List.replicate 4294967296 0).length = 4294967296
    rw [List.length_replicate]
  refine ⟨by decide, rfl, by decide, by decide, by decide, by decide, by decide, ?_,
    by decide, ?_⟩
  · rw [hlen]
    decide
  · unfold read_frame
    rw [if_neg (by decide), if_neg (by decide), if_neg (by decide), if_neg (by decide),
      if_neg (by decide), if_neg (by decide), if_pos]
    rw [hlen]
    decide

/-! ## The calls of read_frame in the loop -/

/-- The calls listed by `read_frame_calls` are the calls of the loop: one
per file handed to lodepng, in order. -/
theorem read_frame_calls_files (env : Env) (header : Header) :
    ∀ (files : List String) (frame : Frame),
      (read_frame_calls env header frame files).map (fun c => c.1) =
        files_decoded (main_loop env header frame files).trace := by
  intro files
  induction files with
  | nil => intro frame; rfl
  | cons f tl ih =>
    intro frame
    simp only [read_frame_calls, main_loop]
    cases read_frame (env.lodepng f) header frame with
    | failed d fr => rfl
    | undefined fault => rfl
    | done fr =>
      simp only [List.map_cons, files_decoded]
      rw [ih fr]

/-- A property of the frame that every successful call preserves holds of
the frame passed to every call of the loop, and every listed result is the
result of `read_frame` on the listed file and frame. -/
theorem read_frame_calls_invariant (env : Env) (header : Header) (P : Frame → Prop)
    (hpres : ∀ png f fr, P f → read_frame png header f = .done fr → P fr) :
    ∀ (files : List String) (frame : Frame), P frame →
      ∀ c ∈ read_frame_calls env header frame files,
        P c.2.1 ∧ c.2.2 = read_frame (env.lodepng c.1) header c.2.1 := by
  intro files
  induction files with
  | nil => intro frame _ c hc; cases hc
  | cons f tl ih =>
    intro frame hP c hc
    simp only [read_frame_calls] at hc
    cases hres : read_frame (env.lodepng f) header frame with
    | failed d fr =>
      rw [hres] at hc
      rw [List.mem_singleton] at hc
      subst hc
      exact ⟨hP, hres.symm⟩
    | undefined fault =>
      rw [hres] at hc
      rw [List.mem_singleton] at hc
      subst hc
      exact ⟨hP, hres.symm⟩
    | done fr =>
      rw [hres] at hc
      rcases List.mem_cons.1 hc with h | h
      · subst h
        exact ⟨hP, hres.symm⟩
      · exact ih fr (hpres _ frame fr hP hres) c h

/-- A call that returns true changes neither the row stride nor the size
of the pixel buffer. -/
theorem read_frame_geometry (png : LoadedPng) (header : Header) (f fr : Frame)
    (h : read_frame png header f = .done fr) :
    fr.rowstride = f.rowstride ∧ fr.pixels.length = f.pixels.length := by
  have hok : (read_frame png header f).returned = some true := by rw [h]; rfl
  obtain ⟨_, _, _, hfit⟩ := (read_frame_returned_true_iff png header f).1 hok
  rw [read_frame_done png header f hok] at h
  cases h
  refine ⟨rfl, ?_⟩
  show (png.pixels ++ f.pixels.drop png.pixels.length).length = f.pixels.length
  rw [List.length_append, List.length_drop]
  omega

/-- The frame a returning call leaves has the row stride it was given. -/
theorem read_frame_rowstride (png : LoadedPng) (header : Header) (f fr : Frame)
    (h : (read_frame png header f).frame = some fr) : fr.rowstride = f.rowstride := by
  cases hres : read_frame png header f with
  | undefined fault => rw [hres] at h; cases h
  | done g =>
    rw [hres] at h
    cases h
    exact (read_frame_geometry png header f fr hres).1
  | failed d g =>
    rw [hres] at h
    cases h
    by_cases hacc : accepted png header f.rowstride
    · rw [read_frame_of_accepted png header f hacc] at hres
      cases hf : fill_frame png f <;> rw [hf] at hres <;> cases hres
    · obtain ⟨d2, hd2⟩ := read_frame_of_not_accepted png header f hacc
      rw [hd2] at hres
      cases hres
      rfl

/-! ## C13: the pixel buffer and the copy -/

/-- In a run that reaches the loop the pixel buffer has height × width
bytes at every call of `read_frame`, and a source that gets past the five
checks has exactly as many pixel bytes as the buffer, so the copy fills the
buffer and stays inside it. -/
theorem main_copy_exact (opts : Options) (env : Env) (hr : reaches_loop opts env) :
    ((main_frame opts env).pixels.length : Int) = opts.height * opts.width ∧
      ∀ c ∈ read_frame_calls env (main_header opts) (main_frame opts env) opts.input_files,
        (c.2.1.pixels.length : Int) = opts.height * opts.width ∧
          (accepted (env.lodepng c.1) (main_header opts) c.2.1.rowstride →
            (env.lodepng c.1).pixels.length = c.2.1.pixels.length) := by
  obtain ⟨hv, hprod, hm⟩ := main_frame_matches opts env hr
  refine ⟨hm.2, ?_⟩
  intro c hc
  have hinv := read_frame_calls_invariant env (main_header opts)
    (fun f => (f.pixels.length : Int) = opts.height * opts.width)
    (fun png f fr hf hres => by
      show (fr.pixels.length : Int) = opts.height * opts.width
      rw [(read_frame_geometry png (main_header opts) f fr hres).2]
      exact hf)
    opts.input_files (main_frame opts env) hm.2 c hc
  refine ⟨hinv.1, ?_⟩
  intro hacc
  obtain ⟨_, _, _, h4, h5, _, h7⟩ := hacc
  have hcount : ((env.lodepng c.1).pixels.length : Int) = opts.height * opts.width := by
    rw [h7, h4, h5]
    exact unsigned_mul_of_header (main_header opts) hv hprod
  have := hinv.1
  omega

/-- C13 (pixel buffer size invariant and copy bound), the code at the
failing input: width and height 46341 pass the configuration checks and the
output opens; height × width is 2147488281, above the largest `int`, so the
product `width * height` that sizes `new uint8_t[...]` is undefined: the run
ends there, after writeHeader, and no buffer of height × width bytes is
acquired. -/
theorem pixel_buffer_overflow :
    square_opts.help = false ∧ config_valid square_opts ∧
      square_env.fopen square_opts.output = true ∧
      square_opts.height * square_opts.width = 2147488281 ∧
      int_mul square_opts.width square_opts.height = .error .int_overflow ∧
      (main square_opts square_env).status = .undefined .int_overflow ∧
      pixel_acquisitions (main square_opts square_env).trace = 0 ∧
      headers_written (main square_opts square_env).trace = [main_header square_opts] := by
  have h := main_int_overflow square_opts square_env (by decide) (by decide) (by decide)
    (by decide)
  rw [h]
  exact ⟨by decide, by decide, by decide, by decide, rfl, rfl, rfl, rfl⟩

/-! ## C14: the stride invariant -/

/-- With the row stride equal to the header width (as `unsigned`) the
stride test of `read_frame` cannot fire: it comes after the width test,
which compares the same decoded width with the same value. -/
theorem read_frame_no_stride_mismatch (png : LoadedPng) (header : Header) (f : Frame)
    (h : f.rowstride = to_unsigned header.width) :
    (read_frame png header f).diag ≠ some .stride_mismatch := by
  by_cases hacc : accepted png header f.rowstride
  · rw [read_frame_of_accepted png header f hacc]
    cases fill_frame png f <;> exact fun hd => Option.noConfusion hd
  · intro hd
    unfold read_frame at hd
    split at hd
    · cases hd
    split at hd
    · cases hd
    split at hd
    · cases hd
    split at hd
    · cases hd
    split at hd
    · cases hd
    split at hd
    · rename_i hw hs
      apply hs
      rw [h]
      exact Decidable.of_not_not hw
    split at hd
    · cases hd
    · split at hd <;> cases hd

/-- The loop on a frame whose row stride is the header width never writes
the stride diagnostic. -/
theorem main_loop_no_stride_mismatch (env : Env) (header : Header) :
    ∀ (files : List String) (frame : Frame), frame.rowstride = to_unsigned header.width →
      Diag.stride_mismatch ∉ diagnostics (main_loop env header frame files).trace := by
  intro files
  induction files with
  | nil => intro frame _ h; cases h
  | cons f tl ih =>
    intro frame hrow
    have hno := read_frame_no_stride_mismatch (env.lodepng f) header frame hrow
    simp only [main_loop]
    cases hres : read_frame (env.lodepng f) header frame with
    | undefined fault =>
      intro h
      cases h
    | failed d fr =>
      rw [hres] at hno
      intro h
      simp only [diagnostics, List.mem_singleton] at h
      exact hno (by rw [← h]; rfl)
    | done fr =>
      have hrow2 : fr.rowstride = to_unsigned header.width := by
        rw [(read_frame_geometry _ header frame fr hres).1]
        exact hrow
      simp only [diagnostics]
      exact ih fr hrow2

/-- C14 (stride invariant): in every run of main that reaches the loop,
main sets frame.rowstride to the header width, every call of read_frame in
the loop is made with the header of main and a frame whose row stride is
header.width, the frame a returning call leaves has row stride header.width
again, and no call ends in the stride-mismatch branch; and in every run of
main, whatever the options and the input files, the stride-mismatch
diagnostic is never written. -/
theorem main_stride_invariant (opts : Options) (env : Env) :
    (reaches_loop opts env →
        ((main_frame opts env).rowstride : Int) = (main_header opts).width ∧
          ∀ c ∈ read_frame_calls env (main_header opts) (main_frame opts env)
              opts.input_files,
            c.2.2 = read_frame (env.lodepng c.1) (main_header opts) c.2.1 ∧
              (c.2.1.rowstride : Int) = (main_header opts).width ∧
              (∀ fr, c.2.2.frame = some fr → (fr.rowstride : Int) = (main_header opts).width) ∧
              c.2.2.diag ≠ some .stride_mismatch) ∧
      Diag.stride_mismatch ∉ diagnostics (main opts env).trace := by
  constructor
  · intro hr
    obtain ⟨hv, _, hm⟩ := main_frame_matches opts env hr
    have ew : (to_unsigned (main_header opts).width : Int) = (main_header opts).width :=
      to_unsigned_of_range _ (by have := hv.1; omega) (by have := hv.2.1; omega)
    refine ⟨by rw [hm.1, ew], ?_⟩
    intro c hc
    obtain ⟨hP, hres⟩ := read_frame_calls_invariant env (main_header opts)
      (fun f => f.rowstride = to_unsigned (main_header opts).width)
      (fun png f fr hf hdone => by
        show fr.rowstride = to_unsigned (main_header opts).width
        rw [(read_frame_geometry png (main_header opts) f fr hdone).1]
        exact hf)
      opts.input_files (main_frame opts env) hm.1 c hc
    have hP2 : c.2.1.rowstride = to_unsigned (main_header opts).width := hP
    refine ⟨hres, by rw [hP2, ew], ?_, ?_⟩
    · intro fr hfr
      rw [hres] at hfr
      rw [read_frame_rowstride _ _ _ _ hfr, hP2, ew]
    · rw [hres]
      exact read_frame_no_stride_mismatch _ _ _ hP2
  · rcases main_cases opts env with h | ⟨e, h⟩ | h | h | hr
    · rw [h]; intro hd; cases hd
    · rw [h]; intro hd; cases hd
    · rw [h]; intro hd; cases hd
    · rw [h]; intro hd; cases hd
    · have hno := main_loop_no_stride_mismatch env (main_header opts) opts.input_files
        (main_frame opts env) rfl
      rw [main_of_reaches_loop opts env hr]
      cases (main_loop env (main_header opts) (main_frame opts env) opts.input_files).ret with
      | error fault =>
        show Diag.stride_mismatch ∉ diagnostics ([_, _, _] ++ _)
        rw [diagnostics_append]
        simpa [diagnostics] using hno
      | ok ret =>
        show Diag.stride_mismatch ∉ diagnostics ([_, _, _] ++ _ ++ [_, _])
        rw [diagnostics_append, diagnostics_append]
        simpa [diagnostics] using hno

set_option maxRecDepth 100000 in
/-- The invariant on the batch [A valid, B wrong width, C valid]: the
diagnostic of B is the width mismatch, never the stride mismatch. -/
theorem main_stride_invariant_witness :
    reaches_loop fail_fast_opts scenario_env ∧
      (((main_frame fail_fast_opts scenario_env).rowstride : Int) =
          (main_header fail_fast_opts).width ∧
        ∀ c ∈ read_frame_calls scenario_env (main_header fail_fast_opts)
            (main_frame fail_fast_opts scenario_env) fail_fast_opts.input_files,
          c.2.2 = read_frame (scenario_env.lodepng c.1) (main_header fail_fast_opts) c.2.1 ∧
            (c.2.1.rowstride : Int) = (main_header fail_fast_opts).width ∧
            (∀ fr, c.2.2.frame = some fr →
              (fr.rowstride : Int) = (main_header fail_fast_opts).width) ∧
            c.2.2.diag ≠ some .stride_mismatch) ∧
      Diag.stride_mismatch ∉ diagnostics (main fail_fast_opts scenario_env).trace :=
  ⟨by decide, (main_stride_invariant fail_fast_opts scenario_env).1 (by decide),
    (main_stride_invariant fail_fast_opts scenario_env).2⟩

/-! ## Runs that return -/

/-- When every input honours the decoder contract, a run that reaches the
loop returns: the loop ends by exhausting the sources or by the break. -/
theorem main_returns_of_contract (opts : Options) (env : Env) (hr : reaches_loop opts env)
    (hdec : ∀ f ∈ opts.input_files, DecoderContract (env.lodepng f)) :
    (main opts env).status = .exited EXIT_SUCCESS ∨
      (main opts env).status = .exited EXIT_FAILURE := by
  rcases first_failure
      (fun f => accepted (env.lodepng f) (main_header opts) (to_unsigned opts.width))
      opts.input_files with hall | ⟨pre, bad, post, hfiles, hpre, hbad⟩
  · left
    rw [main_all_ingested opts env hr
      (fun s hs => returned_true_of_accepted opts env _ hr (hdec s hs) (hall s hs))]
  · right
    have hpre2 : ∀ s ∈ pre,
        (read_frame (env.lodepng s) (main_header opts) (main_frame opts env)).returned =
          some true := by
      intro s hs
      have hmem : s ∈ opts.input_files := by
        rw [hfiles]
        exact List.mem_append_left _ hs
      exact returned_true_of_accepted opts env _ hr (hdec s hmem) (hpre s hs)
    have hbad2 : (read_frame (env.lodepng bad) (main_header opts)
        (main_frame opts env)).returned = some false :=
      (read_frame_returned_false_iff _ _ _).2 hbad
    obtain ⟨d, _, hmain⟩ := main_first_rejected opts env pre bad post hr hfiles hpre2 hbad2
    rw [hmain]

end Png2Flic
